import Mathlib

/-! ATLA list filtering and pagination.

A shallow embedding of the list-filtering and pagination code of the ATLA REST
API (characters, episodes, quotes): the list handlers of `cmd/atla`, the
`GetAll` methods of `pkg/atla/model`, and the `Filters` / `Metadata` /
`Validator` helpers they call; and of the single-record paths: `Get`, `Update`
and `Delete` of the models, the lookups through the join tables, and the get,
update and delete handlers.

Go `int` values are integers (`Int`); where overflow matters the machine word
is explicit (`wrapInt bits`).  A Go `map[string]string` is an association list
read with `List.lookup`.
-/

namespace ATLA

/-! ## Machine integers -/

/-- Two's-complement wrap of an integer to a signed word of `bits` bits, the
result of Go `int` arithmetic on a platform whose `int` has that many bits. -/
def wrapInt (bits : Nat) (x : Int) : Int :=
  (x + 2 ^ (bits - 1)) % 2 ^ bits - 2 ^ (bits - 1)

/-! ## Validator -/

/-- Modelled from the spec: the `validator` package (`validator.Validator`) is
not among the sources.  The spec describes validation failures as a field-name
to message mapping; `Errors` is that mapping, in insertion order. -/
structure Validator where
  Errors : List (String × String)
deriving DecidableEq, Repr

namespace Validator

/-- Modelled from the spec: `validator.New()`, a validator with no field
errors. -/
def New : Validator := ⟨[]⟩

/-- Modelled from the spec: `v.Valid()`, true when the field-error mapping is
empty. -/
def Valid (v : Validator) : Bool := v.Errors.isEmpty

/-- Modelled from the spec: `v.AddError(key, message)`, which records a
field-level error; a field that already has a message keeps it (a mapping holds
one message per field). -/
def AddError (v : Validator) (key message : String) : Validator :=
  match v.Errors.lookup key with
  | some _ => v
  | none => ⟨v.Errors ++ [(key, message)]⟩

/-- Modelled from the spec: `v.Check(ok, key, message)`, which records the
field error only when the condition fails. -/
def Check (v : Validator) (ok : Bool) (key message : String) : Validator :=
  if ok then v else v.AddError key message

end Validator

/-- Modelled from the spec: `validator.In(value, list...)`, membership of a
token in a list of permitted tokens, by exact (case-sensitive) string
equality. -/
def In (value : String) (list : List String) : Bool :=
  list.any (fun safe => value == safe)

/-! ## Filters -/

/-- The `model.Filters` struct, as the handlers fill it: `Page`, `PageSize`,
`Sort` (here `SortToken`, `Sort` being reserved) and `SortSafeList`. -/
structure Filters where
  Page : Int
  PageSize : Int
  SortToken : String
  SortSafeList : List String
deriving DecidableEq, Repr

/-- The messages of the range checks on `page` and `page_size`.  The spec gives
the bounds but not the message texts, so they are parameters. -/
structure RangeMessages where
  page : String
  pageSize : String
deriving DecidableEq, Repr

/-- Modelled from the spec: `model.ValidateFilters` (filters.go is not among the
sources).  `page` must lie in [1, 10,000,000], `page_size` in [1, 100], and
`sort` must be a member of the safelist, else the field error
`"sort"` → `"invalid sort value"` is recorded. -/
def ValidateFilters (msgs : RangeMessages) (v : Validator) (f : Filters) : Validator :=
  let v := v.Check (decide (1 ≤ f.Page ∧ f.Page ≤ 10000000)) "page" msgs.page
  let v := v.Check (decide (1 ≤ f.PageSize ∧ f.PageSize ≤ 100)) "page_size" msgs.pageSize
  v.Check (In f.SortToken f.SortSafeList) "sort" "invalid sort value"

/-- Modelled from the spec: the fixed internal allow-mapping of the sort
resolver, from a sort token to the literal column name it stands for.  The
tokens are those of the three list handlers' safelists (characters, quotes,
episodes); a token with the descending marker `-` maps to the same column as
the token without it. -/
def sortAllowMapping : List (String × String) :=
  [ ("id", "id"), ("-id", "id"),
    ("name", "name"), ("-name", "name"),
    ("age", "age"), ("-age", "age"),
    ("quote", "quote"), ("-quote", "quote"),
    ("created_at", "created_at"), ("-created_at", "created_at"),
    ("updated_at", "updated_at"), ("-updated_at", "updated_at"),
    ("title", "title"), ("-title", "title"),
    ("air_date", "air_date"), ("-air_date", "air_date") ]

/-- The column literals of the allow-mapping. -/
def sortColumns : List String :=
  ["id", "name", "age", "quote", "created_at", "updated_at", "title", "air_date"]

namespace Filters

/-- Modelled from the spec: `filters.sortColumn()` (filters.go is not among the
sources).  Given a sort token that is a member of the safelist, the column is
looked up in the fixed allow-mapping; nothing is computed from the characters
of the token.  `none` when the token is not in the safelist or has no entry:
no column is resolved and no query text is built. -/
def sortColumn (f : Filters) : Option String :=
  if In f.SortToken f.SortSafeList then sortAllowMapping.lookup f.SortToken else none

/-- Modelled from the spec: `filters.sortDirection()`, descending when the
token carries the leading descending marker `-`, ascending otherwise. -/
def sortDirection (f : Filters) : String :=
  match f.SortToken.toList with
  | '-' :: _ => "DESC"
  | _ => "ASC"

/-- Modelled from the spec: `filters.limit()`, `limit = page_size`. -/
def limit (f : Filters) : Int := f.PageSize

/-- Modelled from the spec: `filters.offset()`,
`offset = page_size * (page - 1)`, computed in Go `int` arithmetic on a word of
`bits` bits. -/
def offset (bits : Nat) (f : Filters) : Int :=
  wrapInt bits (wrapInt bits (f.Page - 1) * f.PageSize)

end Filters

/-! ## Metadata -/

/-- The `model.Metadata` struct: `current_page`, `page_size`, `first_page`,
`last_page`, `total_records`. -/
structure Metadata where
  CurrentPage : Int
  PageSize : Int
  FirstPage : Int
  LastPage : Int
  TotalRecords : Int
deriving DecidableEq, Repr

/-- The zero value `Metadata{}`. -/
def Metadata.zero : Metadata := ⟨0, 0, 0, 0, 0⟩

/-- Modelled from the spec: `calculateMetadata` (filters.go is not among the
sources).  The zero Metadata when `total_records == 0`; otherwise
`first_page = 1`, `last_page = ceil(total_records / page_size)`,
`current_page = page`, `page_size = page_size`,
`total_records = total_records`. -/
def calculateMetadata (totalRecords page pageSize : Int) : Metadata :=
  if totalRecords = 0 then Metadata.zero
  else
    { CurrentPage := page
      PageSize := pageSize
      FirstPage := 1
      LastPage := ⌈(totalRecords : ℚ) / (pageSize : ℚ)⌉
      TotalRecords := totalRecords }

/-! ## Entities and the database -/

/-- The error values of the model layer (Go `error`), by their message. -/
abbrev Error := String

/-- The `model.Character` struct. -/
structure Character where
  ID : Int
  Name : String
  Age : Int
  Gender : String
  Status : String
  Nation : String
  CreatedAt : String
  UpdatedAt : String
deriving DecidableEq, Repr

/-- The `model.Quote` struct; a `time.Time` is an instant, an integer. -/
structure Quote where
  ID : Int
  Quote : String
  CreatedAt : Int
  UpdatedAt : Int
deriving DecidableEq, Repr

/-- The `model.Episode` struct. -/
structure Episode where
  ID : Int
  Title : String
  Air_Date : String
  CreatedAt : String
  UpdatedAt : String
deriving DecidableEq, Repr

/-- The stored rows the queries read: the data set.  The tables `characters`,
`quotes` and `episodes`, the join tables `characters_and_episodes` and
`characters_and_quotes` as pairs (`character_id`, other id), and the value of
`CURRENT_TIMESTAMP` at the statement, as the text scanned into a `string` and
as the instant scanned into a `time.Time`. -/
structure Database where
  characters : List Character
  quotes : List Quote
  episodes : List Episode
  characters_and_episodes : List (Int × Int)
  characters_and_quotes : List (Int × Int)
  currentTimestamp : String
  currentInstant : Int
deriving DecidableEq, Repr

/-- A value bound to a positional placeholder (`args := []interface{}{...}`). -/
inductive SqlValue where
  | text (s : String)
  | int (i : Int)
deriving DecidableEq, Repr

/-- A driver behind `database/sql` that answers the list queries by itself, from
the query text and the arguments it receives, in place of a server that
executes the statement on the stored data (another database, or a test
double). -/
structure Driver where
  characters : String → List SqlValue → Except Error (List (Int × Character))
  quotes : String → List SqlValue → Except Error (List (Int × Quote))
  episodes : String → List SqlValue → Except Error (List (Int × Episode))

/-- What a model hands to `DB.QueryContext`: the query text, the argument
slice, the timeout of the context in seconds, and the meaning of the text on a
data set: the result rows in order, each carrying the value of
`count(*) OVER()` in front, or the error the statement raises.  `answer` is
the reply of a self-answering driver to a query with rows of this type. -/
structure Statement (α : Type) where
  text : String
  args : List SqlValue
  timeoutSeconds : Option Nat
  run : Database → Except Error (List (Int × α))
  answer : Driver → String → List SqlValue → Except Error (List (Int × α))

/-! ## fmt.Sprintf -/

/-- What `fmt.Sprintf` appends for the arguments no verb has consumed:
nothing when there is none, `%!(EXTRA string=a, string=b)` otherwise. -/
def extraArguments : List String → List Char
  | [] => []
  | a :: args =>
    "%!(EXTRA ".toList
      ++ (", ".intercalate ((a :: args).map (fun x => "string=" ++ x))).toList ++ [')']

/-- Expansion of a `fmt.Sprintf` format over string arguments, for the two
verbs the query templates use: `%s` takes the next argument and `%%` is a
literal percent sign. -/
def sprintfChars : List Char → List String → List Char
  | [], args => extraArguments args
  | '%' :: '%' :: rest, args => '%' :: sprintfChars rest args
  | '%' :: 's' :: rest, a :: args => a.toList ++ sprintfChars rest args
  | '%' :: 's' :: rest, [] => "%!s(MISSING)".toList ++ sprintfChars rest []
  | c :: rest, args => c :: sprintfChars rest args

/-- The `fmt.Sprintf(format, args...)` call of the models. -/
def Sprintf (format : String) (args : List String) : String :=
  String.mk (sprintfChars format.toList args)

/-! ## SQL expressions -/

/-- SQL `LOWER`, on the basic Latin letters. -/
def sqlLower (s : String) : String := String.mk (s.toList.map Char.toLower)

/-- The parts of a `LIKE` pattern: `%` (any sequence), `_` (any one character)
and a literal character, written plainly or after the escape character `\`. -/
inductive LikeToken where
  | anySeq
  | anyOne
  | lit (c : Char)
deriving DecidableEq, Repr

/-- Reading of a `LIKE` pattern; `none` for a pattern that ends with the escape
character, which the database rejects. -/
def parseLike : List Char → Option (List LikeToken)
  | [] => some []
  | '\\' :: [] => none
  | '\\' :: c :: rest => (parseLike rest).map (fun ts => LikeToken.lit c :: ts)
  | '%' :: rest => (parseLike rest).map (fun ts => LikeToken.anySeq :: ts)
  | '_' :: rest => (parseLike rest).map (fun ts => LikeToken.anyOne :: ts)
  | c :: rest => (parseLike rest).map (fun ts => LikeToken.lit c :: ts)

/-- Whether the whole text matches a parsed `LIKE` pattern. -/
def likeMatch : List LikeToken → List Char → Bool
  | [], t => t.isEmpty
  | LikeToken.anySeq :: p, t => t.tails.any (fun s => likeMatch p s)
  | LikeToken.anyOne :: _, [] => false
  | LikeToken.anyOne :: p, _ :: t => likeMatch p t
  | LikeToken.lit _ :: _, [] => false
  | LikeToken.lit c :: p, d :: t => c == d && likeMatch p t

/-- SQL `text ILIKE pattern`: `LIKE` on the lower-cased text and pattern. -/
def sqlILike (text pattern : String) : Except Error Bool :=
  match parseLike (sqlLower pattern).toList with
  | none => .error "LIKE pattern must not end with escape character"
  | some ts => .ok (likeMatch ts (sqlLower text).toList)

/-- Rows kept by a `WHERE` condition whose evaluation can raise an error. -/
def filterRows {α : Type} (p : α → Except Error Bool) : List α → Except Error (List α)
  | [] => .ok []
  | a :: l =>
    match p a with
    | .error e => .error e
    | .ok keep =>
      match filterRows p l with
      | .error e => .error e
      | .ok rest => .ok (if keep then a :: rest else rest)

/-- Insertion of a row into a list ordered by `le`. -/
def orderedInsert {α : Type} (le : α → α → Bool) (a : α) : List α → List α
  | [] => [a]
  | b :: l => if le a b then a :: b :: l else b :: orderedInsert le a l

/-- Rows in the order of `ORDER BY`: sorted by `le`. -/
def sortRows {α : Type} (le : α → α → Bool) (l : List α) : List α :=
  l.foldr (orderedInsert le) []

/-- The sort direction keyword after the column in `ORDER BY`. -/
def parseDirection : String → Option Bool
  | "ASC" => some false
  | "DESC" => some true
  | _ => none

/-- Order of two rows under `ORDER BY <column> <direction>, id ASC`: the
primary key comparison, reversed when descending, ties broken by ascending
`id`. -/
def orderLe {α : Type} (key : α → α → Ordering) (descending : Bool) (id : α → Int)
    (a b : α) : Bool :=
  match (if descending then key b a else key a b) with
  | .lt => true
  | .gt => false
  | .eq => decide (id a ≤ id b)

/-- The window `LIMIT limit OFFSET offset` of the ordered rows, each row with
the count of all the rows before the window is cut; a negative limit or offset
is rejected. -/
def windowRows {α : Type} (rows : List α) (limit offset : Int) :
    Except Error (List (Int × α)) :=
  if limit < 0 then .error "LIMIT must not be negative"
  else if offset < 0 then .error "OFFSET must not be negative"
  else .ok (((rows.drop offset.toNat).take limit.toNat).map (fun r => ((rows.length : Int), r)))

/-! ## The database handle -/

/-- Behaviour of the driver outside the meaning of the statement: the execution
fails, the scan of the row at an index fails, or the iteration stops after a
number of rows with an error that `rows.Err()` reports; and `driver`, when
present, answers the list queries itself, so that the rows come from it and not
from the meaning of the statement on the stored data. -/
structure Faults where
  exec : Option Error
  scan : Nat → Option Error
  iteration : Option (Nat × Error)
  driver : Option Driver

/-- No failure of the driver, and the statement executed on the stored data. -/
def Faults.none : Faults :=
  ⟨Option.none, fun _ => Option.none, Option.none, Option.none⟩

/-- No failure, and the list queries answered by the driver `d`. -/
def Faults.answering (d : Driver) : Faults :=
  ⟨Option.none, fun _ => Option.none, Option.none, some d⟩

/-- The `*sql.DB` handle: the stored data and the failures of the driver. -/
structure DB where
  data : Database
  faults : Faults

/-- The `*sql.Rows` of an executed query: the outcome of each `rows.Next()` /
`rows.Scan(...)` in order, and the value of `rows.Err()`. -/
structure Rows (α : Type) where
  scans : List (Except Error (Int × α))
  err : Option Error

/-- Outcome of scanning the rows from index `i` on. -/
def scanOutcomes {α : Type} (scan : Nat → Option Error) :
    Nat → List (Int × α) → List (Except Error (Int × α))
  | _, [] => []
  | i, r :: rest =>
    (match scan i with
      | some e => Except.error e
      | none => Except.ok r) :: scanOutcomes scan (i + 1) rest

/-- The rows a list query produces on the handle: the answer of the driver to
the text and the arguments when the handle has a self-answering driver, the
meaning of the statement on the stored data otherwise. -/
def DB.respond {α : Type} (db : DB) (st : Statement α) : Except Error (List (Int × α)) :=
  match db.faults.driver with
  | some d => st.answer d st.text st.args
  | none => st.run db.data

/-- The rows of an answer delivered with no failure of scan or iteration. -/
def delivered {α : Type} (reply : Except Error (List (Int × α))) : Except Error (Rows α) :=
  match reply with
  | .error e => .error e
  | .ok rows => .ok ⟨rows.map Except.ok, Option.none⟩

/-- The call `m.DB.QueryContext(ctx, query, args...)`. -/
def DB.QueryContext {α : Type} (db : DB) (st : Statement α) : Except Error (Rows α) :=
  match db.faults.exec with
  | some e => .error e
  | none =>
    match db.respond st with
    | .error e => .error e
    | .ok rows =>
      match db.faults.iteration with
      | some (n, e) => .ok ⟨scanOutcomes db.faults.scan 0 (rows.take n), some e⟩
      | none => .ok ⟨scanOutcomes db.faults.scan 0 rows, Option.none⟩

/-- What `GetAll` returns: the slice (`nil` is the empty list), the Metadata
and the error. -/
structure ListResult (α : Type) where
  items : List α
  metadata : Metadata
  err : Option Error

/-- The loop `for rows.Next() { rows.Scan(&totalRecords, ...); append }` of
`GetAll`: every scan overwrites `totalRecords` and appends the row; a failed
scan ends the loop with its error. -/
def scanRows {α : Type} :
    List (Except Error (Int × α)) → Int → List α → Except Error (Int × List α)
  | [], totalRecords, acc => .ok (totalRecords, acc)
  | .error e :: _, _, _ => .error e
  | .ok (total, row) :: rest, _, acc => scanRows rest total (acc ++ [row])

/-- The value of `totalRecords` when the loop of `GetAll` ends, `none` when
`GetAll` returns early with an error. -/
def scannedTotal {α : Type} (res : Except Error (Rows α)) : Option Int :=
  match res with
  | .error _ => none
  | .ok rows =>
    match scanRows rows.scans 0 [] with
    | .error _ => none
    | .ok (totalRecords, _) => some totalRecords

/-- The part of `GetAll` after `QueryContext`, the same in the three models:
return on an execution error, scan the rows with `totalRecords := 0` at the
start, return on `rows.Err()`, then build the Metadata from `totalRecords`. -/
def collectRows {α : Type} (res : Except Error (Rows α)) (filters : Filters) :
    ListResult α :=
  match res with
  | .error e => ⟨[], Metadata.zero, some e⟩
  | .ok rows =>
    match scanRows rows.scans 0 [] with
    | .error e => ⟨[], Metadata.zero, some e⟩
    | .ok (totalRecords, items) =>
      match rows.err with
      | some e => ⟨[], Metadata.zero, some e⟩
      | none => ⟨items, calculateMetadata totalRecords filters.Page filters.PageSize, none⟩

/-! ## CharacterModel.GetAll -/

/-- The query text of `CharacterModel.GetAll` for a sort column and direction. -/
def characterListText (column direction : String) : String :=
  Sprintf ("\n\t\tSELECT count(*) OVER(), id, name, age, gender, status, nation, created_at, updated_at"
    ++ "\n\t\tFROM characters"
    ++ "\n\t\tWHERE (LOWER(name) = LOWER($1) OR $1 = '')"
    ++ "\n\t\tAND (age >= $2 OR $2 = 0)"
    ++ "\n\t\tAND (age <= $3 OR $3 = 0)"
    ++ "\n\t\tORDER BY %s %s, id ASC"
    ++ "\n\t\tLIMIT $4 OFFSET $5\n\t\t") [column, direction]

/-- The conjunct `(LOWER(name) = LOWER($1) OR $1 = '')`. -/
def characterNamePredicate (name : String) (c : Character) : Bool :=
  sqlLower c.Name == sqlLower name || name == ""

/-- The conjunct `(age >= $2 OR $2 = 0)`. -/
def characterAgeFromPredicate (age_from : Int) (c : Character) : Bool :=
  decide (c.Age ≥ age_from) || age_from == 0

/-- The conjunct `(age <= $3 OR $3 = 0)`. -/
def characterAgeToPredicate (age_to : Int) (c : Character) : Bool :=
  decide (c.Age ≤ age_to) || age_to == 0

/-- The `WHERE` clause of the character list query. -/
def characterWhere (name : String) (age_from age_to : Int) (c : Character) : Bool :=
  characterNamePredicate name c && characterAgeFromPredicate age_from c
    && characterAgeToPredicate age_to c

/-- Comparison of two characters on a column of the `characters` table; `none`
for a name that is not a column.  Text compares by code point. -/
def characterOrderKey : String → Option (Character → Character → Ordering)
  | "id" => some (fun a b => compare a.ID b.ID)
  | "name" => some (fun a b => compare a.Name b.Name)
  | "age" => some (fun a b => compare a.Age b.Age)
  | "gender" => some (fun a b => compare a.Gender b.Gender)
  | "status" => some (fun a b => compare a.Status b.Status)
  | "nation" => some (fun a b => compare a.Nation b.Nation)
  | "created_at" => some (fun a b => compare a.CreatedAt b.CreatedAt)
  | "updated_at" => some (fun a b => compare a.UpdatedAt b.UpdatedAt)
  | _ => none

/-- Meaning of the character list query with its five placeholders bound. -/
def characterSelect (column direction : String) (args : List SqlValue) (db : Database) :
    Except Error (List (Int × Character)) :=
  match args with
  | [.text name, .int age_from, .int age_to, .int limit, .int offset] =>
    match characterOrderKey column, parseDirection direction with
    | some key, some descending =>
      windowRows (sortRows (orderLe key descending Character.ID)
        (db.characters.filter (characterWhere name age_from age_to))) limit offset
    | _, _ => .error "syntax error in ORDER BY"
  | _ => .error "wrong number or type of parameters"

/-- The `model.CharacterModel` struct (its loggers left out). -/
structure CharacterModel where
  DB : DB

/-- The query text, the argument slice and the 3-second context that
`CharacterModel.GetAll` hands to `QueryContext`, for the resolved sort column;
`bits` is the width of a Go `int`. -/
def characterListStatement (bits : Nat) (column : String) (name : String)
    (age_from age_to : Int) (filters : Filters) : Statement Character :=
  let args := [SqlValue.text name, .int age_from, .int age_to, .int filters.limit,
    .int (filters.offset bits)]
  { text := characterListText column filters.sortDirection
    args := args
    timeoutSeconds := some 3
    run := characterSelect column filters.sortDirection args
    answer := fun d => d.characters }

/-- The method `CharacterModel.GetAll`.  `none` when `filters.sortColumn()`
resolves no column. -/
def CharacterModel.GetAll (bits : Nat) (m : CharacterModel) (name : String)
    (age_from age_to : Int) (filters : Filters) : Option (ListResult Character) :=
  match filters.sortColumn with
  | none => none
  | some column =>
    some (collectRows
      (m.DB.QueryContext (characterListStatement bits column name age_from age_to filters))
      filters)

/-- The value of `totalRecords` from which `CharacterModel.GetAll` builds the
Metadata (line 82), `none` when it does not get that far. -/
def CharacterModel.totalRecords (bits : Nat) (m : CharacterModel) (name : String)
    (age_from age_to : Int) (filters : Filters) : Option Int :=
  match filters.sortColumn with
  | none => none
  | some column =>
    scannedTotal
      (m.DB.QueryContext (characterListStatement bits column name age_from age_to filters))

/-! ## QuoteModel.GetAll -/

/-- The query text of `QuoteModel.GetAll` for a sort column and direction. -/
def quoteListText (column direction : String) : String :=
  Sprintf ("\n\t\tSELECT count(*) OVER(), id, quote, created_at, updated_at"
    ++ "\n\t\tFROM quotes"
    ++ "\n\t\tWHERE (quote ILIKE '%%' || $1 || '%%' OR $1 = '')"
    ++ "\n\t\tORDER BY %s %s, id ASC"
    ++ "\n\t\tLIMIT $2 OFFSET $3\n\t\t") [column, direction]

/-- The `WHERE` clause `(quote ILIKE '%' || $1 || '%' OR $1 = '')` of the quote
list query. -/
def quoteWhere (quote : String) (q : Quote) : Except Error Bool :=
  match sqlILike q.Quote ("%" ++ quote ++ "%") with
  | .error e => .error e
  | .ok matched => .ok (matched || quote == "")

/-- Comparison of two quotes on a column of the `quotes` table; `none` for a
name that is not a column.  Text compares by code point. -/
def quoteOrderKey : String → Option (Quote → Quote → Ordering)
  | "id" => some (fun a b => compare a.ID b.ID)
  | "quote" => some (fun a b => compare a.Quote b.Quote)
  | "created_at" => some (fun a b => compare a.CreatedAt b.CreatedAt)
  | "updated_at" => some (fun a b => compare a.UpdatedAt b.UpdatedAt)
  | _ => none

/-- Meaning of the quote list query with its three placeholders bound. -/
def quoteSelect (column direction : String) (args : List SqlValue) (db : Database) :
    Except Error (List (Int × Quote)) :=
  match args with
  | [.text quote, .int limit, .int offset] =>
    match quoteOrderKey column, parseDirection direction with
    | some key, some descending =>
      match filterRows (quoteWhere quote) db.quotes with
      | .error e => .error e
      | .ok rows => windowRows (sortRows (orderLe key descending Quote.ID) rows) limit offset
    | _, _ => .error "syntax error in ORDER BY"
  | _ => .error "wrong number or type of parameters"

/-- The `model.QuoteModel` struct (its loggers left out). -/
structure QuoteModel where
  DB : DB

/-- The query text, the argument slice and the 7-second context that
`QuoteModel.GetAll` hands to `QueryContext`. -/
def quoteListStatement (bits : Nat) (column : String) (quote : String)
    (filters : Filters) : Statement Quote :=
  let args := [SqlValue.text quote, .int filters.limit, .int (filters.offset bits)]
  { text := quoteListText column filters.sortDirection
    args := args
    timeoutSeconds := some 7
    run := quoteSelect column filters.sortDirection args
    answer := fun d => d.quotes }

/-- The method `QuoteModel.GetAll`. -/
def QuoteModel.GetAll (bits : Nat) (m : QuoteModel) (quote : String)
    (filters : Filters) : Option (ListResult Quote) :=
  match filters.sortColumn with
  | none => none
  | some column =>
    some (collectRows (m.DB.QueryContext (quoteListStatement bits column quote filters))
      filters)

/-- The value of `totalRecords` from which `QuoteModel.GetAll` builds the
Metadata, `none` when it does not get that far. -/
def QuoteModel.totalRecords (bits : Nat) (m : QuoteModel) (quote : String)
    (filters : Filters) : Option Int :=
  match filters.sortColumn with
  | none => none
  | some column =>
    scannedTotal (m.DB.QueryContext (quoteListStatement bits column quote filters))

/-! ## EpisodeModel.GetAll -/

/-- The query text of `EpisodeModel.GetAll` for a sort column and direction. -/
def episodeListText (column direction : String) : String :=
  Sprintf ("\n\t\tSELECT count(*) OVER(), id, title, air_date, createdAt, updatedAt"
    ++ "\n\t\tFROM episode"
    ++ "\n\t\tWHERE (LOWER(title) = LOWER($1) OR $1 = '')"
    ++ "\n\t\tAND (age >= $10 OR $2 = 0)"
    ++ "\n\t\tORDER BY %s %s, id ASC"
    ++ "\n\t\tLIMIT $4 OFFSET $5\n\t\t") [column, direction]

/-- Meaning of the episode list query.  Its text uses the placeholder `$10`;
with fewer than ten arguments that placeholder is unbound and the statement
raises an error on every data set.  With ten arguments the conjunct
`age >= $10` still has no value: an episode row has no `age`. -/
def episodeSelect (_column _direction : String) (args : List SqlValue) (_db : Database) :
    Except Error (List (Int × Episode)) :=
  match args.get? 9 with
  | none => .error "there is no parameter $10"
  | some _ => .error "column \"age\" does not exist"

/-- The `model.EpisodeModel` struct (its loggers left out). -/
structure EpisodeModel where
  DB : DB

/-- The query text, the four-argument slice and the 3-second context that
`EpisodeModel.GetAll` hands to `QueryContext`. -/
def episodeListStatement (bits : Nat) (column : String) (title air_date : String)
    (filters : Filters) : Statement Episode :=
  let args := [SqlValue.text title, .text air_date, .int filters.limit,
    .int (filters.offset bits)]
  { text := episodeListText column filters.sortDirection
    args := args
    timeoutSeconds := some 3
    run := episodeSelect column filters.sortDirection args
    answer := fun d => d.episodes }

/-- The method `EpisodeModel.GetAll`. -/
def EpisodeModel.GetAll (bits : Nat) (m : EpisodeModel) (title air_date : String)
    (filters : Filters) : Option (ListResult Episode) :=
  match filters.sortColumn with
  | none => none
  | some column =>
    some (collectRows
      (m.DB.QueryContext (episodeListStatement bits column title air_date filters)) filters)

/-! ## Errors of the single-record paths -/

/-- A Go `error` value of the single-record paths, by identity:
the sentinel `model.ErrRecordNotFound` (declared in models.go, not among the
sources; only its identity is used), the sentinel `sql.ErrNoRows`, any other
error of the driver with its message, and an error made by
`fmt.Errorf("... %w", err)`, which wraps `cause` after the formatted text. -/
inductive GoError where
  | ErrRecordNotFound
  | ErrNoRows
  | driver (message : Error)
  | wrapped (text : String) (cause : GoError)
deriving DecidableEq, Repr

/-- The test `errors.Is(err, target)` for a sentinel target: `err` is the target
or wraps, at any depth, an error that is. -/
def errorsIs : GoError → GoError → Bool
  | .wrapped text cause, target =>
    GoError.wrapped text cause == target || errorsIs cause target
  | err, target => err == target

/-- A statement of the single-record paths: the query text, the argument
slice, the timeout of the context in seconds (`none` when the call takes no
context), and the meaning of the text on a data set, the rows in order. -/
structure Lookup (α : Type) where
  text : String
  args : List SqlValue
  timeoutSeconds : Option Nat
  run : Database → Except Error (List α)

/-- The call `m.DB.QueryRowContext(ctx, query, args...).Scan(...)`: the first
row of the result, `sql.ErrNoRows` when there is none, or the error of the
driver. -/
def DB.QueryRow {α : Type} (db : DB) (st : Lookup α) : Except GoError α :=
  match db.faults.exec with
  | some e => .error (.driver e)
  | none =>
    match st.run db.data with
    | .error e => .error (.driver e)
    | .ok [] =>
      match db.faults.iteration with
      | some (_, e) => .error (.driver e)
      | none => .error .ErrNoRows
    | .ok (row :: _) =>
      match db.faults.iteration with
      | some (0, e) => .error (.driver e)
      | _ =>
        match db.faults.scan 0 with
        | some e => .error (.driver e)
        | none => .ok row

/-- The call `m.DB.ExecContext(ctx, query, args...)`, of which the models keep
the error only. -/
def DB.Exec {α : Type} (db : DB) (st : Lookup α) : Option GoError :=
  match db.faults.exec with
  | some e => some (.driver e)
  | none =>
    match st.run db.data with
    | .error e => some (.driver e)
    | .ok _ => none

/-- What a single-record method returns, with the texts of the queries it
issued. -/
structure Fetched (α : Type) where
  result : Except GoError α
  issued : List String

/-! ## Get, Update and Delete of the models -/

/-- The statement of `CharacterModel.Get`. -/
def characterGetStatement (id : Int) : Lookup Character :=
  { text := "\n\t\tSELECT id, name, age, gender, status, nation, created_at, updated_at \n\t\tFROM characters\n\t\tWHERE id = $1\n\t\t"
    args := [.int id]
    timeoutSeconds := some 3
    run := fun data => .ok (data.characters.filter (fun c => c.ID == id)) }

/-- The method `CharacterModel.Get`. -/
def CharacterModel.Get (m : CharacterModel) (id : Int) : Fetched Character :=
  if id < 1 then ⟨.error .ErrRecordNotFound, []⟩
  else
    let st := characterGetStatement id
    match m.DB.QueryRow st with
    | .error err =>
      ⟨.error (.wrapped ("cannot retrive character with id: " ++ toString id ++ ", ") err),
        [st.text]⟩
    | .ok character => ⟨.ok character, [st.text]⟩

/-- The statement of `EpisodeModel.Get`. -/
def episodeGetStatement (id : Int) : Lookup Episode :=
  { text := "\n\t\tSELECT id, title, air_date, created_at, updated_at \n\t\tFROM episodes\n\t\tWHERE id = $1\n\t\t"
    args := [.int id]
    timeoutSeconds := some 3
    run := fun data => .ok (data.episodes.filter (fun e => e.ID == id)) }

/-- The method `EpisodeModel.Get`. -/
def EpisodeModel.Get (m : EpisodeModel) (id : Int) : Fetched Episode :=
  if id < 1 then ⟨.error .ErrRecordNotFound, []⟩
  else
    let st := episodeGetStatement id
    match m.DB.QueryRow st with
    | .error err =>
      ⟨.error (.wrapped ("cannot retrive episode with id: " ++ toString id ++ ", ") err),
        [st.text]⟩
    | .ok episode => ⟨.ok episode, [st.text]⟩

/-- The statement of `QuoteModel.Get`. -/
def quoteGetStatement (id : Int) : Lookup Quote :=
  { text := "\n\t\tSELECT id, quote, created_at, updated_at \n\t\tFROM quotes\n\t\tWHERE id = $1\n\t\t"
    args := [.int id]
    timeoutSeconds := some 3
    run := fun data => .ok (data.quotes.filter (fun q => q.ID == id)) }

/-- The method `QuoteModel.Get`, which maps `sql.ErrNoRows` to
`ErrRecordNotFound`. -/
def QuoteModel.Get (m : QuoteModel) (id : Int) : Fetched Quote :=
  if id < 1 then ⟨.error .ErrRecordNotFound, []⟩
  else
    let st := quoteGetStatement id
    match m.DB.QueryRow st with
    | .error err =>
      if err = .ErrNoRows then ⟨.error .ErrRecordNotFound, [st.text]⟩
      else
        ⟨.error (.wrapped ("cannot retrieve quote with id: " ++ toString id ++ ", ") err),
          [st.text]⟩
    | .ok quote => ⟨.ok quote, [st.text]⟩

/-- The statement of `CharacterModel.Update`: the row with the record's `id` and
`updated_at` is rewritten and its new `updated_at` returned. -/
def characterUpdateStatement (character : Character) : Lookup String :=
  { text := "\n\t\tUPDATE characters\n\t\tSET name = $1, age = $2, gender = $3, status = $4, nation = $5, updated_at = CURRENT_TIMESTAMP\n\t\tWHERE id = $6 and updated_at = $7\n\t\tRETURNING updated_at\n\t\t"
    args := [.text character.Name, .int character.Age, .text character.Gender,
      .text character.Status, .text character.Nation, .int character.ID,
      .text character.UpdatedAt]
    timeoutSeconds := some 3
    run := fun data => .ok ((data.characters.filter
      (fun c => c.ID == character.ID && c.UpdatedAt == character.UpdatedAt)).map
      (fun _ => data.currentTimestamp)) }

/-- The method `CharacterModel.Update`: the error of the scan, or the record with
the returned `updated_at` written to it. -/
def CharacterModel.Update (m : CharacterModel) (character : Character) :
    Except GoError Character :=
  match m.DB.QueryRow (characterUpdateStatement character) with
  | .error err => .error err
  | .ok updatedAt => .ok { character with UpdatedAt := updatedAt }

/-- The statement of `EpisodeModel.Update`. -/
def episodeUpdateStatement (episode : Episode) : Lookup String :=
  { text := "\n\t\tUPDATE episodes\n\t\tSET title = $1, air_date = $2, updated_at = CURRENT_TIMESTAMP\n\t\tWHERE id = $3 and updated_at = $4\n\t\tRETURNING updated_at\n\t\t"
    args := [.text episode.Title, .text episode.Air_Date, .int episode.ID,
      .text episode.UpdatedAt]
    timeoutSeconds := some 3
    run := fun data => .ok ((data.episodes.filter
      (fun e => e.ID == episode.ID && e.UpdatedAt == episode.UpdatedAt)).map
      (fun _ => data.currentTimestamp)) }

/-- The method `EpisodeModel.Update`. -/
def EpisodeModel.Update (m : EpisodeModel) (episode : Episode) : Except GoError Episode :=
  match m.DB.QueryRow (episodeUpdateStatement episode) with
  | .error err => .error err
  | .ok updatedAt => .ok { episode with UpdatedAt := updatedAt }

/-- The statement of `QuoteModel.Update`, which selects the row by `id` alone. -/
def quoteUpdateStatement (quote : Quote) : Lookup Int :=
  { text := "\n\t\tUPDATE quotes\n\t\tSET quote = $1, updated_at = CURRENT_TIMESTAMP\n\t\tWHERE id = $2\n\t\tRETURNING updated_at\n\t\t"
    args := [.text quote.Quote, .int quote.ID]
    timeoutSeconds := some 3
    run := fun data => .ok ((data.quotes.filter (fun q => q.ID == quote.ID)).map
      (fun _ => data.currentInstant)) }

/-- The method `QuoteModel.Update`. -/
def QuoteModel.Update (m : QuoteModel) (quote : Quote) : Except GoError Quote :=
  match m.DB.QueryRow (quoteUpdateStatement quote) with
  | .error err => .error err
  | .ok updatedAt => .ok { quote with UpdatedAt := updatedAt }

/-- The statement of `CharacterModel.Delete`; its rows are the ids deleted. -/
def characterDeleteStatement (id : Int) : Lookup Int :=
  { text := "\n\t\tDELETE FROM characters\n\t\tWHERE id = $1\n\t\t"
    args := [.int id]
    timeoutSeconds := some 3
    run := fun data => .ok ((data.characters.filter (fun c => c.ID == id)).map (fun c => c.ID)) }

/-- The method `CharacterModel.Delete`: the error it returns, `none` for nil. -/
def CharacterModel.Delete (m : CharacterModel) (id : Int) : Option GoError :=
  if id < 1 then some .ErrRecordNotFound
  else m.DB.Exec (characterDeleteStatement id)

/-- The statement of `EpisodeModel.Delete`; its rows are the ids deleted. -/
def episodeDeleteStatement (id : Int) : Lookup Int :=
  { text := "\n\t\tDELETE FROM episodes\n\t\tWHERE id = $1\n\t\t"
    args := [.int id]
    timeoutSeconds := some 3
    run := fun data => .ok ((data.episodes.filter (fun e => e.ID == id)).map (fun e => e.ID)) }

/-- The method `EpisodeModel.Delete`: the error it returns, `none` for nil. -/
def EpisodeModel.Delete (m : EpisodeModel) (id : Int) : Option GoError :=
  if id < 1 then some .ErrRecordNotFound
  else m.DB.Exec (episodeDeleteStatement id)

/-! ## Lookups through the join tables -/

/-- Order of two rows under `ORDER BY id`. -/
def idLe {α : Type} (id : α → Int) (a b : α) : Bool := decide (id a ≤ id b)

/-- The statement of `CharacterModel.GetByEpisode`, issued with `m.DB.Query`,
which takes no context: the characters joined to the episode through
`characters_and_episodes`, one row for each link, ordered by `id`. -/
def charactersByEpisodeStatement (episodeID : Int) : Lookup Character :=
  { text := "\n        SELECT c.id, c.name, c.age, c.gender, c.status, c.nation, c.created_at, c.updated_at\n        FROM characters c\n        JOIN characters_and_episodes ce ON c.id = ce.character_id\n        WHERE ce.episode_id = $1\n        ORDER BY c.id\n    "
    args := [.int episodeID]
    timeoutSeconds := none
    run := fun data => .ok (sortRows (idLe Character.ID)
      (data.characters.flatMap (fun c =>
        (data.characters_and_episodes.filter
          (fun link => link.1 == c.ID && link.2 == episodeID)).map (fun _ => c)))) }

/-- The statement of `CharacterModel.GetByQuote`, issued with
`QueryRowContext` under a 3-second context. -/
def characterByQuoteStatement (quoteID : Int) : Lookup Character :=
  { text := "\n        SELECT c.id, c.name, c.age, c.gender, c.status, c.nation, c.created_at, c.updated_at\n        FROM characters c\n        JOIN characters_and_quotes cq ON c.id = cq.character_id\n        WHERE cq.quote_id = $1\n        ORDER BY c.id\n    "
    args := [.int quoteID]
    timeoutSeconds := some 3
    run := fun data => .ok (sortRows (idLe Character.ID)
      (data.characters.flatMap (fun c =>
        (data.characters_and_quotes.filter
          (fun link => link.1 == c.ID && link.2 == quoteID)).map (fun _ => c)))) }

/-- The statement of `QuoteModel.GetQuotesByCharacterID`, issued with
`m.DB.Query`, which takes no context. -/
def quotesByCharacterStatement (characterID : Int) : Lookup Quote :=
  { text := "\n\t\tSELECT q.id, q.quote, q.created_at, q.updated_at\n\t\tFROM quotes q\n\t\tJOIN characters_and_quotes cq ON q.id = cq.quote_id\n\t\tWHERE cq.character_id = $1\n\t\tORDER BY q.id"
    args := [.int characterID]
    timeoutSeconds := none
    run := fun data => .ok (sortRows (idLe Quote.ID)
      (data.quotes.flatMap (fun q =>
        (data.characters_and_quotes.filter
          (fun link => link.2 == q.ID && link.1 == characterID)).map (fun _ => q)))) }

/-- The `*sql.Rows` of `m.DB.Query`: the outcome of each scan in order and the
value of `rows.Err()`. -/
structure Cursor (α : Type) where
  scans : List (Except Error α)
  err : Option Error

/-- Outcome of scanning the plain rows from index `i` on. -/
def plainOutcomes {α : Type} (scan : Nat → Option Error) :
    Nat → List α → List (Except Error α)
  | _, [] => []
  | i, r :: rest =>
    (match scan i with
      | some e => Except.error e
      | none => Except.ok r) :: plainOutcomes scan (i + 1) rest

/-- The call `m.DB.Query(query, args...)`. -/
def DB.Query {α : Type} (db : DB) (st : Lookup α) : Except Error (Cursor α) :=
  match db.faults.exec with
  | some e => .error e
  | none =>
    match st.run db.data with
    | .error e => .error e
    | .ok rows =>
      match db.faults.iteration with
      | some (n, e) => .ok ⟨plainOutcomes db.faults.scan 0 (rows.take n), some e⟩
      | none => .ok ⟨plainOutcomes db.faults.scan 0 rows, Option.none⟩

/-- The loop `for rows.Next() { rows.Scan(...); append }` of the join lookups. -/
def scanPlain {α : Type} : List (Except Error α) → List α → Except Error (List α)
  | [], acc => .ok acc
  | .error e :: _, _ => .error e
  | .ok row :: rest, acc => scanPlain rest (acc ++ [row])

/-- The method `CharacterModel.GetByEpisode`, which does not consult
`rows.Err()`. -/
def CharacterModel.GetByEpisode (m : CharacterModel) (episodeID : Int) :
    Except GoError (List Character) :=
  match m.DB.Query (charactersByEpisodeStatement episodeID) with
  | .error e => .error (.driver e)
  | .ok rows =>
    match scanPlain rows.scans [] with
    | .error e => .error (.driver e)
    | .ok characters => .ok characters

/-- The method `CharacterModel.GetByQuote`. -/
def CharacterModel.GetByQuote (m : CharacterModel) (quoteID : Int) :
    Except GoError Character :=
  match m.DB.QueryRow (characterByQuoteStatement quoteID) with
  | .error err =>
    .error (.wrapped ("cannot retrive character with id: " ++ toString quoteID ++ ", ") err)
  | .ok character => .ok character

/-- The method `QuoteModel.GetQuotesByCharacterID`. -/
def QuoteModel.GetQuotesByCharacterID (m : QuoteModel) (characterID : Int) :
    Except GoError (List Quote) :=
  match m.DB.Query (quotesByCharacterStatement characterID) with
  | .error e => .error (.driver e)
  | .ok rows =>
    match scanPlain rows.scans [] with
    | .error e => .error (.driver e)
    | .ok quotes =>
      match rows.err with
      | some e => .error (.driver e)
      | none => .ok quotes

/-! ## Validation of the records -/

/-- The function `model.ValidateCharacter`. -/
def ValidateCharacter (v : Validator) (character : Character) : Validator :=
  let v := v.Check (character.Name != "") "name" "must be provided"
  let v := v.Check (decide (character.Age ≤ 10000)) "age"
    "must not be more than 10000 bytes long"
  let v := v.Check (character.Gender != "") "gender" "must be provided"
  let v := v.Check (character.Status != "") "status" "must be provided"
  v.Check (character.Nation != "") "nation" "must be provided"

/-- The function `model.ValidateEpisode`; both checks record under `title`. -/
def ValidateEpisode (v : Validator) (episode : Episode) : Validator :=
  let v := v.Check (episode.Title != "") "title" "must be provided"
  v.Check (episode.Air_Date != "") "title" "must be provided"

/-- The function `model.ValidateQuote`. -/
def ValidateQuote (v : Validator) (quote : Quote) : Validator :=
  v.Check (quote.Quote != "") "quote" "must be provided"

/-! ## Placeholders of a query text -/

/-- The positional placeholders `$n` of a query text, in order of occurrence.
The state is `none` outside a placeholder, `some none` after a `$` and
`some (some n)` while the digits of `$n` are read. -/
def placeholdersFrom : List Char → Option (Option Nat) → List Nat
  | [], some (some n) => [n]
  | [], _ => []
  | c :: rest, state =>
    if c.isDigit then
      match state with
      | some (some n) => placeholdersFrom rest (some (some (10 * n + (c.toNat - 48))))
      | some none => placeholdersFrom rest (some (some (c.toNat - 48)))
      | none => placeholdersFrom rest none
    else
      (match state with
        | some (some n) => [n]
        | _ => []) ++ placeholdersFrom rest (if c = '$' then some none else none)

/-- The positional placeholders of a query text. -/
def placeholders (text : String) : List Nat := placeholdersFrom text.toList none

/-- The argument bound to the placeholder `$n` by an argument slice. -/
def boundTo (args : List SqlValue) (n : Nat) : Option SqlValue :=
  if n = 0 then none else args.get? (n - 1)

/-- The number of the placeholder that follows a keyword in the query text:
the `n` of `LIMIT $n` or of `OFFSET $n`. -/
def placeholderAfter (keyword : String) (text : String) : Option Nat :=
  match text.toList.tails.find? (fun s => (keyword ++ " $").toList.isPrefixOf s) with
  | none => none
  | some s =>
    match (s.drop (keyword.length + 2)).takeWhile Char.isDigit with
    | [] => none
    | digits => some (digits.foldl (fun n c => 10 * n + (c.toNat - 48)) 0)

/-! ## Requests -/

/-- The value of a run of decimal digits read after `acc`, `none` when a
character is not a digit. -/
def decimalValue : List Char → Nat → Option Nat
  | [], acc => some acc
  | c :: rest, acc =>
    if c.isDigit then decimalValue rest (10 * acc + (c.toNat - 48)) else none

/-- The function `strconv.Atoi` on a Go `int` of `bits` bits: an optional sign
and one or more decimal digits, within the range of `int`; `none` for an
error. -/
def Atoi (bits : Nat) (s : String) : Option Int :=
  match s.toList with
  | [] => none
  | '-' :: ds =>
    if ds.isEmpty then none
    else (decimalValue ds 0).bind
      (fun n => if (n : Int) ≤ 2 ^ (bits - 1) then some (-(n : Int)) else none)
  | '+' :: ds =>
    if ds.isEmpty then none
    else (decimalValue ds 0).bind
      (fun n => if (n : Int) < 2 ^ (bits - 1) then some (n : Int) else none)
  | ds =>
    (decimalValue ds 0).bind
      (fun n => if (n : Int) < 2 ^ (bits - 1) then some (n : Int) else none)

/-- The method `url.Values.Get`: the first value of the key, or the empty
string. -/
def valuesGet (values : List (String × List String)) (key : String) : String :=
  match values.lookup key with
  | some (value :: _) => value
  | _ => ""

/-- The parts of a `*http.Request` the handlers read: the path variables of the
route (`mux.Vars(r)`), the query string (`r.URL.Query()`) and the body. -/
structure Request where
  pathVars : List (String × String)
  query : List (String × List String)
  body : String
deriving DecidableEq, Repr

/-- The `input` struct of `updateCharacterHandler`: a pointer field is `none`
when the body does not supply it. -/
structure CharacterUpdate where
  ID : Option Int
  Name : Option String
  Age : Option Int
  Gender : Option String
  Status : Option String
  Nation : Option String
deriving DecidableEq, Repr

/-- The `input` struct of `updateEpisodeHandler`. -/
structure EpisodeUpdate where
  ID : Option Int
  Title : Option String
  Air_Date : Option String
deriving DecidableEq, Repr

/-- The `input` struct of `updateQuoteHandler`. -/
structure QuoteUpdate where
  Quote : Option String
deriving DecidableEq, Repr

/-! ## The list handlers -/

/-- The parsed query string `r.URL.Query()` (`url.Values`). -/
abbrev QueryValues := List (String × List String)

/-- The `models` field of the application. -/
structure Models where
  Characters : CharacterModel
  Quotes : QuoteModel
  Episodes : EpisodeModel

/-- The `application` struct as the list handlers use it.  The helpers
`readStrings` and `readInt` (helpers.go is not among the sources) are
parameters: `readInt` returns the integer read and the validator with any error
it recorded.  `rangeMessages` are the messages of `ValidateFilters` and
`intBits` the width of a Go `int`.  The helpers `readIDParam` and `readJSON`
are parameters too, `readJSON` once for each `input` struct it decodes the body
into. -/
structure Application where
  models : Models
  readStrings : QueryValues → String → String → String
  readInt : QueryValues → String → Int → Validator → Int × Validator
  rangeMessages : RangeMessages
  intBits : Nat
  readIDParam : Request → Except GoError Int
  readCharacterUpdate : Request → Except GoError CharacterUpdate
  readEpisodeUpdate : Request → Except GoError EpisodeUpdate
  readQuoteUpdate : Request → Except GoError QuoteUpdate

/-- A call of a model's `GetAll` made by a handler, with its arguments. -/
inductive ModelCall where
  | charactersGetAll (name : String) (age_from age_to : Int) (filters : Filters)
  | quotesGetAll (quote : String) (filters : Filters)
  | episodesGetAll (title air_date : String) (filters : Filters)
deriving DecidableEq, Repr

/-- What a list handler writes: `failedValidationResponse` with the field
errors, `serverErrorResponse` with the error, the 200 envelope with the records
and the metadata, or nothing when `GetAll` does not return. -/
inductive Response where
  | failedValidation (errors : List (String × String))
  | serverError (err : Error)
  | characters (items : List Character) (metadata : Metadata)
  | quotes (items : List Quote) (metadata : Metadata)
  | episodes (items : List Episode) (metadata : Metadata)
  | aborted
deriving DecidableEq, Repr

/-- The response of a handler and the model calls it made, in order. -/
structure Handled where
  response : Response
  calls : List ModelCall
deriving DecidableEq, Repr

/-- The safelist that `getCharacterList` puts in the filters. -/
def characterSortSafeList : List String :=
  ["id", "name", "age", "-id", "-name", "-age"]

/-- The safelist that `getQuoteList` puts in the filters. -/
def quoteSortSafeList : List String :=
  ["id", "quote", "created_at", "updated_at", "-id", "-quote", "-created_at", "-updated_at"]

/-- The safelist that `getEpisodeList` puts in the filters. -/
def episodeSortSafeList : List String :=
  ["id", "title", "air_date", "-id", "-title", "-air_date"]

/-- The input of `getCharacterList` read from the query string (lines 61-75),
and the validator after `ValidateFilters` has run on it (line 77). -/
def characterListInput (app : Application) (qs : QueryValues) :
    String × Int × Filters × Validator :=
  let v := Validator.New
  let name := app.readStrings qs "name" ""
  let (age, v) := app.readInt qs "age" 0 v
  let (page, v) := app.readInt qs "page" 1 v
  let (pageSize, v) := app.readInt qs "page_size" 20 v
  let sort := app.readStrings qs "sort" "id"
  let filters : Filters := ⟨page, pageSize, sort, characterSortSafeList⟩
  (name, age, filters, ValidateFilters app.rangeMessages v filters)

/-- The handler `getCharacterList`. -/
def getCharacterList (app : Application) (qs : QueryValues) : Handled :=
  match characterListInput app qs with
  | (name, age, filters, v) =>
    if !v.Valid then ⟨.failedValidation v.Errors, []⟩
    else
      let call := ModelCall.charactersGetAll name age age filters
      match app.models.Characters.GetAll app.intBits name age age filters with
      | none => ⟨.aborted, [call]⟩
      | some res =>
        match res.err with
        | some e => ⟨.serverError e, [call]⟩
        | none => ⟨.characters res.items res.metadata, [call]⟩

/-- The input of `getQuoteList` read from the query string, and the validator
after `ValidateFilters` has run on it. -/
def quoteListInput (app : Application) (qs : QueryValues) : String × Filters × Validator :=
  let v := Validator.New
  let quote := app.readStrings qs "quote" ""
  let (page, v) := app.readInt qs "page" 1 v
  let (pageSize, v) := app.readInt qs "page_size" 20 v
  let sort := app.readStrings qs "sort" "id"
  let filters : Filters := ⟨page, pageSize, sort, quoteSortSafeList⟩
  (quote, filters, ValidateFilters app.rangeMessages v filters)

/-- The handler `getQuoteList`. -/
def getQuoteList (app : Application) (qs : QueryValues) : Handled :=
  match quoteListInput app qs with
  | (quote, filters, v) =>
    if !v.Valid then ⟨.failedValidation v.Errors, []⟩
    else
      let call := ModelCall.quotesGetAll quote filters
      match app.models.Quotes.GetAll app.intBits quote filters with
      | none => ⟨.aborted, [call]⟩
      | some res =>
        match res.err with
        | some e => ⟨.serverError e, [call]⟩
        | none => ⟨.quotes res.items res.metadata, [call]⟩

/-- The input of `getEpisodeList` read from the query string, and the validator
after `ValidateFilters` has run on it. -/
def episodeListInput (app : Application) (qs : QueryValues) :
    String × String × Filters × Validator :=
  let v := Validator.New
  let title := app.readStrings qs "title" ""
  let air_date := app.readStrings qs "air_date" ""
  let (page, v) := app.readInt qs "page" 1 v
  let (pageSize, v) := app.readInt qs "page_size" 20 v
  let sort := app.readStrings qs "sort" "id"
  let filters : Filters := ⟨page, pageSize, sort, episodeSortSafeList⟩
  (title, air_date, filters, ValidateFilters app.rangeMessages v filters)

/-- The handler `getEpisodeList`. -/
def getEpisodeList (app : Application) (qs : QueryValues) : Handled :=
  match episodeListInput app qs with
  | (title, air_date, filters, v) =>
    if !v.Valid then ⟨.failedValidation v.Errors, []⟩
    else
      let call := ModelCall.episodesGetAll title air_date filters
      match app.models.Episodes.GetAll app.intBits title air_date filters with
      | none => ⟨.aborted, [call]⟩
      | some res =>
        match res.err with
        | some e => ⟨.serverError e, [call]⟩
        | none => ⟨.episodes res.items res.metadata, [call]⟩

/-! ## The single-record handlers -/

/-- A call of the model layer made by a single-record handler, with its
arguments. -/
inductive StoreCall where
  | charactersGet (id : Int)
  | episodesGet (id : Int)
  | quotesGet (id : Int)
  | validateCharacter (character : Character)
  | validateEpisode (episode : Episode)
  | validateQuote (quote : Quote)
  | charactersUpdate (character : Character)
  | episodesUpdate (episode : Episode)
  | quotesUpdate (quote : Quote)
  | charactersDelete (id : Int)
  | episodesDelete (id : Int)
deriving DecidableEq, Repr

/-- What a single-record handler writes: `notFoundResponse`,
`serverErrorResponse`, `badRequestResponse`, `failedValidationResponse`, or the
200 envelope with the record or with a message. -/
inductive Reply where
  | notFound
  | serverError (err : GoError)
  | badRequest (err : GoError)
  | failedValidation (errors : List (String × String))
  | character (character : Character)
  | episode (episode : Episode)
  | quote (quote : Quote)
  | message (text : String)
deriving DecidableEq, Repr

/-- The reply of a handler and the model calls it made, in order. -/
structure Answered where
  reply : Reply
  calls : List StoreCall
deriving DecidableEq, Repr

/-- The switch `case errors.Is(err, model.ErrRecordNotFound): notFoundResponse;
default: serverErrorResponse`. -/
def errorReply (err : GoError) : Reply :=
  if errorsIs err .ErrRecordNotFound then .notFound else .serverError err

/-- The handler `getCharacterHandler`. -/
def getCharacterHandler (app : Application) (r : Request) : Answered :=
  match app.readIDParam r with
  | .error _ => ⟨.notFound, []⟩
  | .ok id =>
    match (app.models.Characters.Get id).result with
    | .error err => ⟨errorReply err, [.charactersGet id]⟩
    | .ok character => ⟨.character character, [.charactersGet id]⟩

/-- The handler `getEpisodeHandler`. -/
def getEpisodeHandler (app : Application) (r : Request) : Answered :=
  match app.readIDParam r with
  | .error _ => ⟨.notFound, []⟩
  | .ok id =>
    match (app.models.Episodes.Get id).result with
    | .error err => ⟨errorReply err, [.episodesGet id]⟩
    | .ok episode => ⟨.episode episode, [.episodesGet id]⟩

/-- Lines 144-159 of `updateCharacterHandler`: each field the body supplies is
written to the loaded record. -/
def applyCharacterUpdate (character : Character) (input : CharacterUpdate) : Character :=
  let character :=
    match input.Name with
    | some name => { character with Name := name }
    | none => character
  let character :=
    match input.Age with
    | some age => { character with Age := age }
    | none => character
  let character :=
    match input.Gender with
    | some gender => { character with Gender := gender }
    | none => character
  let character :=
    match input.Status with
    | some status => { character with Status := status }
    | none => character
  match input.Nation with
  | some nation => { character with Nation := nation }
  | none => character

/-- The handler `updateCharacterHandler`. -/
def updateCharacterHandler (app : Application) (r : Request) : Answered :=
  match app.readIDParam r with
  | .error _ => ⟨.notFound, []⟩
  | .ok id =>
    match (app.models.Characters.Get id).result with
    | .error err => ⟨errorReply err, [.charactersGet id]⟩
    | .ok character =>
      match app.readCharacterUpdate r with
      | .error err => ⟨.badRequest err, [.charactersGet id]⟩
      | .ok input =>
        let character := applyCharacterUpdate character input
        let v := ValidateCharacter Validator.New character
        if !v.Valid then
          ⟨.failedValidation v.Errors, [.charactersGet id, .validateCharacter character]⟩
        else
          let calls := [StoreCall.charactersGet id, .validateCharacter character,
            .charactersUpdate character]
          match app.models.Characters.Update character with
          | .error err => ⟨errorReply err, calls⟩
          | .ok updated => ⟨.character updated, calls⟩

/-- Lines 146-152 of `updateEpisodeHandler`. -/
def applyEpisodeUpdate (episode : Episode) (input : EpisodeUpdate) : Episode :=
  let episode :=
    match input.Title with
    | some title => { episode with Title := title }
    | none => episode
  match input.Air_Date with
  | some air_date => { episode with Air_Date := air_date }
  | none => episode

/-- The handler `updateEpisodeHandler`. -/
def updateEpisodeHandler (app : Application) (r : Request) : Answered :=
  match app.readIDParam r with
  | .error _ => ⟨.notFound, []⟩
  | .ok id =>
    match (app.models.Episodes.Get id).result with
    | .error err => ⟨errorReply err, [.episodesGet id]⟩
    | .ok episode =>
      match app.readEpisodeUpdate r with
      | .error err => ⟨.badRequest err, [.episodesGet id]⟩
      | .ok input =>
        let episode := applyEpisodeUpdate episode input
        let v := ValidateEpisode Validator.New episode
        if !v.Valid then
          ⟨.failedValidation v.Errors, [.episodesGet id, .validateEpisode episode]⟩
        else
          let calls := [StoreCall.episodesGet id, .validateEpisode episode,
            .episodesUpdate episode]
          match app.models.Episodes.Update episode with
          | .error err => ⟨errorReply err, calls⟩
          | .ok updated => ⟨.episode updated, calls⟩

/-- Lines 119-121 of `updateQuoteHandler`. -/
def applyQuoteUpdate (quote : Quote) (input : QuoteUpdate) : Quote :=
  match input.Quote with
  | some text => { quote with Quote := text }
  | none => quote

/-- The handler `updateQuoteHandler`. -/
def updateQuoteHandler (app : Application) (r : Request) : Answered :=
  match app.readIDParam r with
  | .error _ => ⟨.notFound, []⟩
  | .ok id =>
    match (app.models.Quotes.Get id).result with
    | .error err => ⟨errorReply err, [.quotesGet id]⟩
    | .ok quote =>
      match app.readQuoteUpdate r with
      | .error err => ⟨.badRequest err, [.quotesGet id]⟩
      | .ok input =>
        let quote := applyQuoteUpdate quote input
        let v := ValidateQuote Validator.New quote
        if !v.Valid then
          ⟨.failedValidation v.Errors, [.quotesGet id, .validateQuote quote]⟩
        else
          let calls := [StoreCall.quotesGet id, .validateQuote quote, .quotesUpdate quote]
          match app.models.Quotes.Update quote with
          | .error err => ⟨errorReply err, calls⟩
          | .ok updated => ⟨.quote updated, calls⟩

/-- The handler `deleteCharacterHandler`, which takes the id from
`readIDParam`. -/
def deleteCharacterHandler (app : Application) (r : Request) : Answered :=
  match app.readIDParam r with
  | .error _ => ⟨.notFound, []⟩
  | .ok id =>
    match app.models.Characters.Delete id with
    | some err => ⟨errorReply err, [.charactersDelete id]⟩
    | none => ⟨.message "success", [.charactersDelete id]⟩

/-- The handler `deleteEpisodeHandler`, which takes the id from
`strconv.Atoi(r.URL.Query().Get(":id"))`. -/
def deleteEpisodeHandler (app : Application) (r : Request) : Answered :=
  match Atoi app.intBits (valuesGet r.query ":id") with
  | none => ⟨.notFound, []⟩
  | some id =>
    if id < 1 then ⟨.notFound, []⟩
    else
      match app.models.Episodes.Delete id with
      | some err => ⟨errorReply err, [.episodesDelete id]⟩
      | none => ⟨.message "episode deleted successfully", [.episodesDelete id]⟩

/-! ## Auxiliary definitions for the statements -/

/-- The characters with a special meaning in a `LIKE` pattern: `%`, `_` and the
escape character `\`. -/
def likeMeta (c : Char) : Bool := c == '%' || c == '_' || c == '\\'

/-- A character row, for the concrete evaluations. -/
def aang : Character := ⟨1, "Aang", 112, "male", "alive", "Air Nomads", "", ""⟩

/-- A data set with one character and one quote. -/
def sampleData : Database := ⟨[aang], [⟨1, "Hello there", 0, 0⟩], [], [], [], "", 0⟩

/-- An application over the sample data with no driver failure, whose helpers
return their defaults. -/
def sampleApp : Application :=
  { models := ⟨⟨⟨sampleData, Faults.none⟩⟩, ⟨⟨sampleData, Faults.none⟩⟩,
      ⟨⟨sampleData, Faults.none⟩⟩⟩
    readStrings := fun _ _ d => d
    readInt := fun _ _ d v => (d, v)
    rangeMessages := ⟨"", ""⟩
    intBits := 64
    readIDParam := fun _ => .ok 1
    readCharacterUpdate := fun _ => .ok ⟨none, none, none, none, none, none⟩
    readEpisodeUpdate := fun _ => .ok ⟨none, none, none⟩
    readQuoteUpdate := fun _ => .ok ⟨none⟩ }

/-- A second character row. -/
def katara : Character := ⟨2, "Katara", 14, "female", "alive", "Water Tribe", "", ""⟩

/-- A data set with two characters. -/
def twoCharacters : Database := ⟨[aang, katara], [], [], [], [], "", 0⟩

/-- The contract of `GetAll` on the outcome `res` of `QueryContext`, for the
value `out` that `GetAll` returns: an execution error, the first failed scan or
the error of `rows.Err()` is returned with a nil slice and the zero Metadata;
with no failure every scanned row is returned, in scan order, with a nil
error. -/
@[reducible]
def AllOrNothing {α : Type} (res : Except Error (Rows α)) (out : Option (ListResult α)) :
    Prop :=
  (∀ e : Error, res = .error e → out = some ⟨[], Metadata.zero, some e⟩) ∧
  (∀ (rows : Rows α) (pre : List (Int × α)) (e : Error)
      (post : List (Except Error (Int × α))), res = .ok rows →
    rows.scans = pre.map Except.ok ++ Except.error e :: post →
    out = some ⟨[], Metadata.zero, some e⟩) ∧
  (∀ (rows : Rows α) (scanned : List (Int × α)) (e : Error), res = .ok rows →
    rows.scans = scanned.map Except.ok →
    rows.err = some e → out = some ⟨[], Metadata.zero, some e⟩) ∧
  (∀ (rows : Rows α) (scanned : List (Int × α)), res = .ok rows →
    rows.scans = scanned.map Except.ok →
    rows.err = none → ∃ metadata, out = some ⟨scanned.map Prod.snd, metadata, none⟩)

/-- A driver whose scan of the second row fails. -/
def secondScanFails : Faults :=
  ⟨Option.none, fun i => if i = 1 then some "scan failed" else Option.none, Option.none,
    Option.none⟩

/-- Whether an argument slice supplies exactly the placeholders of a query text:
every placeholder is one of `$1..$n` and each of `$1..$n` occurs, `n` being the
number of arguments. -/
def placeholdersSupplied (text : String) (args : List SqlValue) : Bool :=
  (placeholders text).all (fun n => decide (1 ≤ n ∧ n ≤ args.length)) &&
    (List.range args.length).all (fun i => (placeholders text).contains (i + 1))

/-- The filters of a request for page 3 with page size 20, sorted by `id`. -/
def pageThree (safelist : List String) : Filters := ⟨3, 20, "id", safelist⟩

/-- The sample application with the id 7, which no stored row has, read from
the request. -/
def lookupSeven : Application := { sampleApp with readIDParam := fun _ => .ok 7 }

/-- A request with no path variable, no query string and an empty body. -/
def emptyRequest : Request := ⟨[], [], ""⟩

/-- A request for `DELETE /episodes/5`: the path variable `id` is 5 and the
query string is empty. -/
def deleteEpisodeFive : Request := ⟨[("id", "5")], [], ""⟩

/-- A body that supplies an id, a name and an age. -/
def renameAang : CharacterUpdate := ⟨some 99, some "Avatar Aang", some 113, none, none, none⟩

/-- The sample application whose `readJSON` decodes the body `renameAang`. -/
def renamingApp : Application :=
  { sampleApp with readCharacterUpdate := fun _ => .ok renameAang }

/-- A driver that answers every list query with an error whose message is the
query text it received. -/
def echoDriver : Driver :=
  ⟨fun text _ => .error text, fun text _ => .error text, fun text _ => .error text⟩

/-- A data set with one episode. -/
def oneEpisode : Database :=
  ⟨[], [], [⟨1, "The Boy in the Iceberg", "2005-02-21", "", ""⟩], [], [], "", 0⟩

/-- Two episode rows. -/
def icebergEpisode : Episode := ⟨1, "The Boy in the Iceberg", "2005-02-21", "", ""⟩

/-- The second episode row. -/
def returnsEpisode : Episode := ⟨2, "The Avatar Returns", "2005-02-21", "", ""⟩

/-- A driver that answers the episode list query with two rows, each carrying
the count 2, and the other list queries with no row. -/
def twoEpisodeDriver : Driver :=
  ⟨fun _ _ => .ok [], fun _ _ => .ok [],
    fun _ _ => .ok [(2, icebergEpisode), (2, returnsEpisode)]⟩

/-- The driver `twoEpisodeDriver` with a failure at the scan of the second
row. -/
def secondEpisodeScanFails : Faults :=
  ⟨Option.none, fun i => if i = 1 then some "scan failed" else Option.none, Option.none,
    some twoEpisodeDriver⟩

/-- An application over two stored characters whose `readInt` reads the age 14
and the defaults otherwise. -/
def ageFourteen : Application :=
  { sampleApp with
    models := ⟨⟨⟨twoCharacters, Faults.none⟩⟩, ⟨⟨twoCharacters, Faults.none⟩⟩,
      ⟨⟨twoCharacters, Faults.none⟩⟩⟩
    readInt := fun _ key d v => (if key = "age" then 14 else d, v) }

/-! ## Theorems -/

set_option maxRecDepth 100000

/-! ### Validation of the sort token (C1) -/

theorem In_iff_mem (value : String) (list : List String) :
    In value list = true ↔ value ∈ list := by
  unfold In
  simp [List.any_eq_true]

theorem lookup_append_singleton (a k m : String) (l : List (String × String)) :
    (l ++ [(k, m)]).lookup a
      = match l.lookup a with
        | some x => some x
        | none => if a == k then some m else none := by
  induction l with
  | nil => simp [List.lookup]; split <;> simp_all
  | cons hd tl ih =>
    obtain ⟨k1, m1⟩ := hd
    simp only [List.cons_append, List.lookup]
    split
    · simp
    · exact ih

theorem lookup_AddError (v : Validator) (a k m : String) :
    (v.AddError k m).Errors.lookup a
      = match v.Errors.lookup a with
        | some x => some x
        | none => if a == k then (match v.Errors.lookup k with | some y => some y | none => some m) else none := by
  unfold Validator.AddError
  cases hk : v.Errors.lookup k with
  | some y =>
    simp only
    cases ha : v.Errors.lookup a with
    | some x => rfl
    | none =>
      simp only
      split
      · rename_i h
        have : a = k := by simpa using h
        subst this
        rw [ha] at hk; cases hk
      · rfl
  | none =>
    simp only [lookup_append_singleton]

theorem lookup_Check_ne (v : Validator) (ok : Bool) (a k m : String) (h : a ≠ k) :
    (v.Check ok k m).Errors.lookup a = v.Errors.lookup a := by
  unfold Validator.Check
  split
  · rfl
  · rw [lookup_AddError]
    cases v.Errors.lookup a <;> simp [h]

theorem AddError_not_valid (v : Validator) (k m : String) : (v.AddError k m).Valid = false := by
  unfold Validator.AddError Validator.Valid
  cases hk : v.Errors.lookup k with
  | some y =>
    simp only
    cases hE : v.Errors with
    | nil => rw [hE] at hk; simp [List.lookup] at hk
    | cons _ _ => rfl
  | none => simp

/-- Claim C1. Starting from a validator with no `sort` error (as in the handlers,
where only `readInt` has written to it), `ValidateFilters` on a sort token that
is not a member of the safelist leaves the validator invalid with the field
error `sort` → `invalid sort value`; on a token that is a member it records no
`sort` error.  Membership is equality of strings, so it is case-sensitive and
`id` and `-id` are distinct entries. -/
theorem ValidateFilters_sort (msgs : RangeMessages) (v : Validator) (f : Filters)
    (hv : v.Errors.lookup "sort" = none) :
    (f.SortToken ∉ f.SortSafeList →
      (ValidateFilters msgs v f).Valid = false ∧
      (ValidateFilters msgs v f).Errors.lookup "sort" = some "invalid sort value") ∧
    (f.SortToken ∈ f.SortSafeList →
      (ValidateFilters msgs v f).Errors.lookup "sort" = none) := by
  have hpre : ((v.Check (decide (1 ≤ f.Page ∧ f.Page ≤ 10000000)) "page" msgs.page).Check
      (decide (1 ≤ f.PageSize ∧ f.PageSize ≤ 100)) "page_size" msgs.pageSize).Errors.lookup "sort"
      = none := by
    rw [lookup_Check_ne _ _ _ _ _ (by decide), lookup_Check_ne _ _ _ _ _ (by decide), hv]
  have hshape : ValidateFilters msgs v f
      = ((v.Check (decide (1 ≤ f.Page ∧ f.Page ≤ 10000000)) "page" msgs.page).Check
          (decide (1 ≤ f.PageSize ∧ f.PageSize ≤ 100)) "page_size" msgs.pageSize).Check
          (In f.SortToken f.SortSafeList) "sort" "invalid sort value" := rfl
  rw [hshape]
  generalize ((v.Check (decide (1 ≤ f.Page ∧ f.Page ≤ 10000000)) "page" msgs.page).Check
      (decide (1 ≤ f.PageSize ∧ f.PageSize ≤ 100)) "page_size" msgs.pageSize) = w at hpre ⊢
  constructor
  · intro hnot
    have hin : In f.SortToken f.SortSafeList = false := by
      cases h : In f.SortToken f.SortSafeList
      · rfl
      · exact absurd ((In_iff_mem _ _).1 h) hnot
    rw [hin]
    have hc : w.Check false "sort" "invalid sort value" = w.AddError "sort" "invalid sort value" := rfl
    rw [hc]
    refine ⟨AddError_not_valid _ _ _, ?_⟩
    rw [lookup_AddError, hpre]
    simp
  · intro hmem
    have hin : In f.SortToken f.SortSafeList = true := (In_iff_mem _ _).2 hmem
    rw [hin]
    exact hpre

/-- Witness of C1: the token `ID` is not in the character safelist, which holds
`id` and `-id`, and is rejected with the `sort` field error. -/
theorem ValidateFilters_sort_witness :
    Validator.New.Errors.lookup "sort" = none ∧ "ID" ∉ characterSortSafeList ∧
    (ValidateFilters ⟨"p", "s"⟩ Validator.New ⟨1, 20, "ID", characterSortSafeList⟩).Valid = false ∧
    (ValidateFilters ⟨"p", "s"⟩ Validator.New
        ⟨1, 20, "ID", characterSortSafeList⟩).Errors.lookup "sort" = some "invalid sort value" :=
  ⟨rfl, by decide,
    (ValidateFilters_sort ⟨"p", "s"⟩ Validator.New ⟨1, 20, "ID", characterSortSafeList⟩ rfl).1
      (by decide)⟩

/-! ### The handlers validate before they query (C2) -/

/-- Claim C2. In `getCharacterList`, `getQuoteList` and `getEpisodeList`, for every
application and query string: when the validator is not valid after
`ValidateFilters` has run, the handler answers with `failedValidationResponse`
carrying the validator's field errors and makes no model call; and a call of
`GetAll` is made only when the validator is valid. -/
theorem list_handlers_validate_before_GetAll (app : Application) (qs : QueryValues) :
    (((characterListInput app qs).2.2.2.Valid = false →
        getCharacterList app qs
          = ⟨.failedValidation (characterListInput app qs).2.2.2.Errors, []⟩) ∧
      ((getCharacterList app qs).calls ≠ [] → (characterListInput app qs).2.2.2.Valid = true)) ∧
    (((quoteListInput app qs).2.2.Valid = false →
        getQuoteList app qs = ⟨.failedValidation (quoteListInput app qs).2.2.Errors, []⟩) ∧
      ((getQuoteList app qs).calls ≠ [] → (quoteListInput app qs).2.2.Valid = true)) ∧
    (((episodeListInput app qs).2.2.2.Valid = false →
        getEpisodeList app qs
          = ⟨.failedValidation (episodeListInput app qs).2.2.2.Errors, []⟩) ∧
      ((getEpisodeList app qs).calls ≠ [] → (episodeListInput app qs).2.2.2.Valid = true)) := by
  refine ⟨⟨?_, ?_⟩, ⟨?_, ?_⟩, ⟨?_, ?_⟩⟩
  · intro h
    unfold getCharacterList
    simp [h]
  · intro h
    cases hv : (characterListInput app qs).2.2.2.Valid with
    | true => rfl
    | false =>
      exfalso; apply h
      unfold getCharacterList
      simp [hv]
  · intro h
    unfold getQuoteList
    simp [h]
  · intro h
    cases hv : (quoteListInput app qs).2.2.Valid with
    | true => rfl
    | false =>
      exfalso; apply h
      unfold getQuoteList
      simp [hv]
  · intro h
    unfold getEpisodeList
    simp [h]
  · intro h
    cases hv : (episodeListInput app qs).2.2.2.Valid with
    | true => rfl
    | false =>
      exfalso; apply h
      unfold getEpisodeList
      simp [hv]

/-! ### The sort column is a literal of the allow-mapping (C3) -/

theorem lookup_some_mem (a b : String) (l : List (String × String))
    (h : l.lookup a = some b) : (a, b) ∈ l := by
  induction l with
  | nil => simp [List.lookup] at h
  | cons hd tl ih =>
    obtain ⟨k, m⟩ := hd
    simp only [List.lookup] at h
    split at h
    · rename_i heq
      have hk : a = k := by simpa using heq
      cases h
      subst hk
      exact List.mem_cons_self _ _
    · exact List.mem_cons_of_mem _ (ih h)

theorem sortAllowMapping_columns : ∀ p ∈ sortAllowMapping, p.2 ∈ sortColumns := by
  decide

theorem sortAllowMapping_covers :
    ∀ t ∈ characterSortSafeList ++ quoteSortSafeList ++ episodeSortSafeList,
      (sortAllowMapping.lookup t).isSome = true := by
  decide

/-- Claim C3. For every `Filters` whose sort token is in its safelist, a column
that `sortColumn` resolves is one of the fixed column literals, being the entry
of the allow-mapping for that token, whatever characters the token and the
safelist hold; and with the safelist of any of the three list handlers a column
is always resolved. -/
theorem sortColumn_from_allow_mapping (f : Filters) (hmem : f.SortToken ∈ f.SortSafeList) :
    (∀ c, f.sortColumn = some c → c ∈ sortColumns ∧ (f.SortToken, c) ∈ sortAllowMapping) ∧
    (f.SortSafeList = characterSortSafeList ∨ f.SortSafeList = quoteSortSafeList
        ∨ f.SortSafeList = episodeSortSafeList → ∃ c, f.sortColumn = some c) := by
  have hin : In f.SortToken f.SortSafeList = true := (In_iff_mem _ _).2 hmem
  have hcol : f.sortColumn = sortAllowMapping.lookup f.SortToken := by
    unfold Filters.sortColumn
    rw [hin]; rfl
  constructor
  · intro c hc
    rw [hcol] at hc
    have hm := lookup_some_mem _ _ _ hc
    exact ⟨sortAllowMapping_columns _ hm, hm⟩
  · intro hlist
    have hall : f.SortToken ∈ characterSortSafeList ++ quoteSortSafeList ++ episodeSortSafeList := by
      rcases hlist with h | h | h <;> rw [h] at hmem <;> simp [hmem]
    have := sortAllowMapping_covers _ hall
    rw [hcol]
    exact Option.isSome_iff_exists.1 this

/-- Witness of C3: the token `-age` of the character safelist resolves to the
literal `age`. -/
theorem sortColumn_from_allow_mapping_witness :
    "-age" ∈ characterSortSafeList ∧
    (⟨2, 20, "-age", characterSortSafeList⟩ : Filters).sortColumn = some "age" ∧
    "age" ∈ sortColumns ∧ ("-age", "age") ∈ sortAllowMapping :=
  ⟨by decide, by decide,
    (sortColumn_from_allow_mapping ⟨2, 20, "-age", characterSortSafeList⟩ (by decide)).1 "age"
      (by decide)⟩


/-! ### Metadata (C4) -/

theorem ceil_div_eq (total pageSize : Int) (hps : 1 ≤ pageSize) :
    ⌈(total : ℚ) / (pageSize : ℚ)⌉ = (total + pageSize - 1) / pageSize := by
  have hpos : (0 : ℚ) < (pageSize : ℚ) := by exact_mod_cast hps
  have hpos' : 0 < pageSize := by omega
  rw [Int.ceil_eq_iff]
  have hd := Int.emod_add_ediv (total + pageSize - 1) pageSize
  have hm := Int.emod_nonneg (total + pageSize - 1) (ne_of_gt hpos')
  have hl := Int.emod_lt_of_pos (total + pageSize - 1) hpos'
  set q := (total + pageSize - 1) / pageSize with hq
  set r := (total + pageSize - 1) % pageSize with hr
  have ht : (total : ℚ) = (pageSize : ℚ) * q + r - pageSize + 1 := by
    have : total = pageSize * q + r - pageSize + 1 := by linarith
    exact_mod_cast this
  constructor
  · rw [lt_div_iff₀ hpos]
    rw [ht]
    have : (r : ℚ) ≥ 0 := by exact_mod_cast hm
    nlinarith
  · rw [div_le_iff₀ hpos]
    rw [ht]
    have : (r : ℚ) ≤ pageSize - 1 := by
      have : r ≤ pageSize - 1 := by omega
      exact_mod_cast this
    nlinarith

/-- Claim C4. `calculateMetadata` returns the all-zero Metadata when
`total_records = 0`, for every page and page size; for `total_records > 0` and
`page_size >= 1` it returns `current_page = page`, `page_size = page_size`,
`first_page = 1`, `last_page = ceil(total_records / page_size)`, which is
`(total_records + page_size - 1) / page_size` in integer division, and
`total_records = total_records`; for 45 records, page 1 and page size 20 the
last page is 3. -/
theorem calculateMetadata_spec :
    (∀ page pageSize : Int, calculateMetadata 0 page pageSize = ⟨0, 0, 0, 0, 0⟩) ∧
    (∀ totalRecords page pageSize : Int, 0 < totalRecords → 1 ≤ pageSize →
      (calculateMetadata totalRecords page pageSize).CurrentPage = page ∧
      (calculateMetadata totalRecords page pageSize).PageSize = pageSize ∧
      (calculateMetadata totalRecords page pageSize).FirstPage = 1 ∧
      (calculateMetadata totalRecords page pageSize).LastPage
        = ⌈(totalRecords : ℚ) / (pageSize : ℚ)⌉ ∧
      (calculateMetadata totalRecords page pageSize).LastPage
        = (totalRecords + pageSize - 1) / pageSize ∧
      (calculateMetadata totalRecords page pageSize).TotalRecords = totalRecords) ∧
    calculateMetadata 45 1 20 = ⟨1, 20, 1, 3, 45⟩ := by
  refine ⟨?_, ?_, ?_⟩
  · intro page pageSize
    rfl
  · intro totalRecords page pageSize ht hps
    have hne : totalRecords ≠ 0 := by omega
    have hm : calculateMetadata totalRecords page pageSize
        = ⟨page, pageSize, 1, ⌈(totalRecords : ℚ) / (pageSize : ℚ)⌉, totalRecords⟩ := by
      unfold calculateMetadata
      rw [if_neg hne]
    rw [hm]
    exact ⟨rfl, rfl, rfl, rfl, ceil_div_eq _ _ hps, rfl⟩
  · have h := ceil_div_eq 45 20 (by norm_num)
    simp only [calculateMetadata]
    rw [if_neg (by norm_num)]
    rw [h]
    rfl

/-- Witness of C4: 41 records on page 2 with page size 20. -/
theorem calculateMetadata_spec_witness :
    (0 : Int) < 41 ∧ (1 : Int) ≤ 20 ∧
    (calculateMetadata 41 2 20).CurrentPage = 2 ∧
    (calculateMetadata 41 2 20).PageSize = 20 ∧
    (calculateMetadata 41 2 20).FirstPage = 1 ∧
    (calculateMetadata 41 2 20).LastPage = ⌈((41 : Int) : ℚ) / ((20 : Int) : ℚ)⌉ ∧
    (calculateMetadata 41 2 20).LastPage = (41 + 20 - 1) / 20 ∧
    (calculateMetadata 41 2 20).TotalRecords = 41 :=
  ⟨by decide, by decide, calculateMetadata_spec.2.1 41 2 20 (by decide) (by decide)⟩

/-! ### Limit and offset (C5) -/

theorem wrapInt_eq_self (bits : Nat) (x : Int) (hbits : 1 ≤ bits)
    (hlo : -(2 ^ (bits - 1)) ≤ x) (hhi : x < 2 ^ (bits - 1)) : wrapInt bits x = x := by
  unfold wrapInt
  have hpow : (2 : Int) ^ bits = 2 * 2 ^ (bits - 1) := by
    obtain ⟨k, rfl⟩ : ∃ k, bits = k + 1 := ⟨bits - 1, by omega⟩
    simp [pow_succ, mul_comm]
  rw [Int.emod_eq_of_lt (by linarith) (by rw [hpow]; linarith)]
  ring

theorem pow_bits_ge (bits : Nat) (hbits : 32 ≤ bits) : (2147483648 : Int) ≤ 2 ^ (bits - 1) := by
  have h : (2 : Int) ^ 31 ≤ 2 ^ (bits - 1) :=
    pow_le_pow_right₀ (by norm_num) (by omega)
  norm_num at h
  exact h

theorem offset_exact (bits : Nat) (f : Filters) (hbits : 32 ≤ bits)
    (hpage : 1 ≤ f.Page ∧ f.Page ≤ 10000000) (hsize : 1 ≤ f.PageSize ∧ f.PageSize ≤ 100) :
    f.offset bits = f.PageSize * (f.Page - 1) := by
  have hp := pow_bits_ge bits hbits
  unfold Filters.offset
  rw [wrapInt_eq_self bits (f.Page - 1) (by omega) (by omega) (by omega)]
  have h1 : 0 ≤ (f.Page - 1) * f.PageSize := mul_nonneg (by omega) (by omega)
  have h2 : (f.Page - 1) * f.PageSize ≤ 9999999 * 100 :=
    mul_le_mul (by omega) hsize.2 (by omega) (by norm_num)
  rw [wrapInt_eq_self bits _ (by omega) (by omega) (by omega)]
  ring

/-- Claim C5. For every page in [1, 10,000,000] and page size in [1, 100], on a
Go `int` of at least 32 bits, `limit() = page_size` and
`offset() = page_size * (page - 1)` with no wrap-around, so `limit >= 1` and
`offset >= 0`. -/
theorem limit_offset_exact (bits : Nat) (f : Filters) (hbits : 32 ≤ bits)
    (hpage : 1 ≤ f.Page ∧ f.Page ≤ 10000000) (hsize : 1 ≤ f.PageSize ∧ f.PageSize ≤ 100) :
    f.limit = f.PageSize ∧ f.offset bits = f.PageSize * (f.Page - 1) ∧
    1 ≤ f.limit ∧ 0 ≤ f.offset bits := by
  have ho := offset_exact bits f hbits hpage hsize
  refine ⟨rfl, ho, hsize.1, ?_⟩
  rw [ho]
  exact mul_nonneg (by omega) (by omega)

/-- Witness of C5: the largest page and page size on a 32-bit `int`. -/
theorem limit_offset_exact_witness :
    (32 : Nat) ≤ 32 ∧
    ((1 : Int) ≤ 10000000 ∧ (10000000 : Int) ≤ 10000000) ∧
    ((1 : Int) ≤ 100 ∧ (100 : Int) ≤ 100) ∧
    (⟨10000000, 100, "id", characterSortSafeList⟩ : Filters).limit = 100 ∧
    (⟨10000000, 100, "id", characterSortSafeList⟩ : Filters).offset 32 = 100 * (10000000 - 1) ∧
    1 ≤ (⟨10000000, 100, "id", characterSortSafeList⟩ : Filters).limit ∧
    0 ≤ (⟨10000000, 100, "id", characterSortSafeList⟩ : Filters).offset 32 :=
  ⟨by decide, by decide, by decide,
    limit_offset_exact 32 ⟨10000000, 100, "id", characterSortSafeList⟩ (by decide) (by decide)
      (by decide)⟩


/-! ### The total-record count (C6) -/

theorem length_orderedInsert {α : Type} (le : α → α → Bool) (a : α) (l : List α) :
    (orderedInsert le a l).length = l.length + 1 := by
  induction l with
  | nil => rfl
  | cons b l ih =>
    unfold orderedInsert
    split
    · rfl
    · simp [ih]

theorem length_sortRows {α : Type} (le : α → α → Bool) (l : List α) :
    (sortRows le l).length = l.length := by
  induction l with
  | nil => rfl
  | cons a l ih =>
    show (orderedInsert le a (sortRows le l)).length = _
    rw [length_orderedInsert, ih]
    rfl

theorem scanOutcomes_no_fault {α : Type} (rows : List (Int × α)) (i : Nat) :
    scanOutcomes (fun _ => Option.none) i rows = rows.map Except.ok := by
  induction rows generalizing i with
  | nil => rfl
  | cons r rest ih =>
    simp only [scanOutcomes, List.map_cons, ih]

theorem scanRows_counted {α : Type} (total : Int) (window : List α) (start : Int)
    (acc : List α) :
    scanRows ((window.map (fun r => (total, r))).map Except.ok) start acc
      = .ok (if window.isEmpty then start else total, acc ++ window) := by
  induction window generalizing start acc with
  | nil => simp [scanRows]
  | cons r rest ih =>
    simp only [List.map_cons, scanRows]
    rw [ih]
    cases rest <;> simp

theorem windowRows_ok {α : Type} (rows : List α) (limit offset : Int)
    (hl : 0 ≤ limit) (ho : 0 ≤ offset) :
    windowRows rows limit offset
      = .ok (((rows.drop offset.toNat).take limit.toNat).map
          (fun r => ((rows.length : Int), r))) := by
  unfold windowRows
  rw [if_neg (by omega), if_neg (by omega)]

theorem window_eq_nil_iff {α : Type} (rows : List α) (limit offset : Int)
    (hl : 1 ≤ limit) (ho : 0 ≤ offset) :
    (rows.drop offset.toNat).take limit.toNat = [] ↔ ¬ offset < (rows.length : Int) := by
  rw [List.take_eq_nil_iff, List.drop_eq_nil_iff]
  constructor
  · rintro (h | h)
    · omega
    · omega
  · intro h
    right
    omega

/-- With no driver failure, a statement whose meaning is a window over `rows`
leaves in `totalRecords` the count of `rows` when the window has a row, and the
initial 0 when the window is empty; `GetAll` builds the Metadata from it. -/
theorem collectRows_window {α : Type} (data : Database) (st : Statement α) (rows : List α)
    (limit offset : Int) (filters : Filters) (hl : 1 ≤ limit) (ho : 0 ≤ offset)
    (hrun : st.run data = windowRows rows limit offset) :
    scannedTotal ((⟨data, Faults.none⟩ : DB).QueryContext st)
        = some (if offset < (rows.length : Int) then (rows.length : Int) else 0) ∧
    collectRows ((⟨data, Faults.none⟩ : DB).QueryContext st) filters
        = ⟨(rows.drop offset.toNat).take limit.toNat,
            calculateMetadata (if offset < (rows.length : Int) then (rows.length : Int) else 0)
              filters.Page filters.PageSize, none⟩ := by
  have hq : (⟨data, Faults.none⟩ : DB).QueryContext st
      = .ok ⟨(((rows.drop offset.toNat).take limit.toNat).map
          (fun r => ((rows.length : Int), r))).map Except.ok, Option.none⟩ := by
    unfold DB.QueryContext
    simp only [Faults.none, DB.respond]
    rw [hrun, windowRows_ok rows limit offset (by omega) ho]
    simp only [scanOutcomes_no_fault]
  have hnil := window_eq_nil_iff rows limit offset hl ho
  rw [hq]
  unfold scannedTotal collectRows
  simp only [scanRows_counted, List.nil_append]
  by_cases h : offset < (rows.length : Int)
  · have hne : ((rows.drop offset.toNat).take limit.toNat).isEmpty = false := by
      cases hw : (rows.drop offset.toNat).take limit.toNat with
      | nil => exact absurd h (hnil.1 hw)
      | cons _ _ => rfl
    simp [h, hne]
  · have hemp : (rows.drop offset.toNat).take limit.toNat = [] := hnil.2 h
    simp [h, hemp]


theorem parseDirection_sortDirection (f : Filters) :
    ∃ descending, parseDirection f.sortDirection = some descending := by
  unfold Filters.sortDirection
  split
  · exact ⟨true, rfl⟩
  · exact ⟨false, rfl⟩

theorem character_sort_resolves (f : Filters) (hlist : f.SortSafeList = characterSortSafeList)
    (hmem : f.SortToken ∈ f.SortSafeList) :
    ∃ column key, f.sortColumn = some column ∧ characterOrderKey column = some key := by
  obtain ⟨page, size, token, safe⟩ := f
  simp only at hlist hmem
  subst hlist
  simp only [characterSortSafeList, List.mem_cons, List.mem_singleton, List.not_mem_nil,
    or_false] at hmem
  rcases hmem with h | h | h | h | h | h <;> subst h
  · exact ⟨"id", _, rfl, rfl⟩
  · exact ⟨"name", _, rfl, rfl⟩
  · exact ⟨"age", _, rfl, rfl⟩
  · exact ⟨"id", _, rfl, rfl⟩
  · exact ⟨"name", _, rfl, rfl⟩
  · exact ⟨"age", _, rfl, rfl⟩

theorem quote_sort_resolves (f : Filters) (hlist : f.SortSafeList = quoteSortSafeList)
    (hmem : f.SortToken ∈ f.SortSafeList) :
    ∃ column key, f.sortColumn = some column ∧ quoteOrderKey column = some key := by
  obtain ⟨page, size, token, safe⟩ := f
  simp only at hlist hmem
  subst hlist
  simp only [quoteSortSafeList, List.mem_cons, List.mem_singleton, List.not_mem_nil,
    or_false] at hmem
  rcases hmem with h | h | h | h | h | h | h | h <;> subst h
  · exact ⟨"id", _, rfl, rfl⟩
  · exact ⟨"quote", _, rfl, rfl⟩
  · exact ⟨"created_at", _, rfl, rfl⟩
  · exact ⟨"updated_at", _, rfl, rfl⟩
  · exact ⟨"id", _, rfl, rfl⟩
  · exact ⟨"quote", _, rfl, rfl⟩
  · exact ⟨"created_at", _, rfl, rfl⟩
  · exact ⟨"updated_at", _, rfl, rfl⟩

theorem parseLike_escape (d : Char) (rest : List Char) :
    parseLike ('\\' :: d :: rest)
      = (parseLike rest).map (fun ts => LikeToken.lit d :: ts) := by
  rw [parseLike]

theorem parseLike_unescaped (c : Char) (rest : List Char) (h : c ≠ '\\') :
    ∃ tok, parseLike (c :: rest) = (parseLike rest).map (fun ts => tok :: ts) := by
  have key : ∀ r, parseLike rest = r →
      ∃ tok, parseLike (c :: rest) = r.map (fun ts => tok :: ts) := by
    intro r hr
    unfold parseLike
    split
    · simp_all
    · simp_all
    · simp_all
    · rename_i heq
      simp only [List.cons.injEq] at heq
      obtain ⟨rfl, rfl⟩ := heq
      exact ⟨LikeToken.anySeq, by rw [hr]⟩
    · rename_i heq
      simp only [List.cons.injEq] at heq
      obtain ⟨rfl, rfl⟩ := heq
      exact ⟨LikeToken.anyOne, by rw [hr]⟩
    · rename_i heq
      simp only [List.cons.injEq] at heq
      obtain ⟨rfl, rfl⟩ := heq
      exact ⟨LikeToken.lit _, by rw [hr]⟩
  exact key _ rfl

theorem parseLike_percent_end (n : Nat) :
    ∀ l : List Char, l.length ≤ n → ∃ ts, parseLike (l ++ ['%']) = some ts := by
  induction n with
  | zero =>
    intro l hl
    have : l = [] := List.length_eq_zero.1 (by omega)
    subst this
    exact ⟨[LikeToken.anySeq], rfl⟩
  | succ n ih =>
    intro l hl
    match l, hl with
    | [], _ => exact ⟨[LikeToken.anySeq], rfl⟩
    | c :: rest, hl =>
      by_cases hc : c = '\\'
      · subst hc
        match rest, hl with
        | [], _ => exact ⟨[LikeToken.lit '%'], rfl⟩
        | d :: r, hl =>
          obtain ⟨ts, hts⟩ := ih r (by simp at hl ⊢; omega)
          refine ⟨LikeToken.lit d :: ts, ?_⟩
          simp only [List.cons_append]
          rw [parseLike_escape, hts]
          rfl
      · obtain ⟨ts, hts⟩ := ih rest (by simp at hl ⊢; omega)
        obtain ⟨tok, htok⟩ := parseLike_unescaped c (rest ++ ['%']) hc
        refine ⟨tok :: ts, ?_⟩
        simp only [List.cons_append]
        rw [htok, hts]
        rfl

theorem sqlLower_pattern (quote : String) :
    (sqlLower ("%" ++ quote ++ "%")).toList
      = '%' :: (quote.toList.map Char.toLower ++ ['%']) := by
  simp [sqlLower, String.toList]

theorem quoteWhere_ok (quote : String) (q : Quote) : ∃ b, quoteWhere quote q = .ok b := by
  unfold quoteWhere sqlILike
  rw [sqlLower_pattern]
  obtain ⟨ts, hts⟩ := parseLike_percent_end _ ('%' :: quote.toList.map Char.toLower) (le_refl _)
  simp only [List.cons_append] at hts
  rw [hts]
  exact ⟨_, rfl⟩

theorem filterRows_ok {α : Type} (p : α → Except Error Bool) (hp : ∀ a, ∃ b, p a = .ok b)
    (l : List α) : ∃ rows, filterRows p l = .ok rows := by
  induction l with
  | nil => exact ⟨[], rfl⟩
  | cons a l ih =>
    obtain ⟨b, hb⟩ := hp a
    obtain ⟨rows, hrows⟩ := ih
    unfold filterRows
    rw [hb]
    simp only [hrows]
    exact ⟨_, rfl⟩

/-- Claim C6, amended. For every valid page and page size, every data set and no
driver failure, in `CharacterModel.GetAll` and `QuoteModel.GetAll` (sort token
in the handler's safelist): the value of `totalRecords` from which the Metadata
is built is the number of rows matching the filters when the window has a row,
which is when `page_size * (page - 1)` is below that number, and is 0 when the
requested page lies past the last matching row; `GetAll` returns the Metadata
computed from that value with a nil error. -/
theorem GetAll_totalRecords_of_window (bits : Nat) (data : Database) (filters : Filters)
    (hbits : 32 ≤ bits)
    (hpage : 1 ≤ filters.Page ∧ filters.Page ≤ 10000000)
    (hsize : 1 ≤ filters.PageSize ∧ filters.PageSize ≤ 100)
    (hmem : filters.SortToken ∈ filters.SortSafeList) :
    (filters.SortSafeList = characterSortSafeList → ∀ (name : String) (age_from age_to : Int),
      ∃ items,
        CharacterModel.totalRecords bits ⟨⟨data, Faults.none⟩⟩ name age_from age_to filters
          = some (if filters.PageSize * (filters.Page - 1)
                < ((data.characters.filter (characterWhere name age_from age_to)).length : Int)
              then ((data.characters.filter (characterWhere name age_from age_to)).length : Int)
              else 0) ∧
        CharacterModel.GetAll bits ⟨⟨data, Faults.none⟩⟩ name age_from age_to filters
          = some ⟨items, calculateMetadata (if filters.PageSize * (filters.Page - 1)
                < ((data.characters.filter (characterWhere name age_from age_to)).length : Int)
              then ((data.characters.filter (characterWhere name age_from age_to)).length : Int)
              else 0) filters.Page filters.PageSize, none⟩) ∧
    (filters.SortSafeList = quoteSortSafeList → ∀ quote : String,
      ∃ matching items, filterRows (quoteWhere quote) data.quotes = .ok matching ∧
        QuoteModel.totalRecords bits ⟨⟨data, Faults.none⟩⟩ quote filters
          = some (if filters.PageSize * (filters.Page - 1) < (matching.length : Int)
              then (matching.length : Int) else 0) ∧
        QuoteModel.GetAll bits ⟨⟨data, Faults.none⟩⟩ quote filters
          = some ⟨items, calculateMetadata (if filters.PageSize * (filters.Page - 1)
                < (matching.length : Int) then (matching.length : Int) else 0)
              filters.Page filters.PageSize, none⟩) := by
  have hoff := offset_exact bits filters hbits hpage hsize
  have hl1 : 1 ≤ filters.limit := hsize.1
  have ho0 : 0 ≤ filters.offset bits := by
    rw [hoff]
    exact mul_nonneg (by omega) (by omega)
  obtain ⟨descending, hdir⟩ := parseDirection_sortDirection filters
  constructor
  · intro hlist name age_from age_to
    obtain ⟨column, key, hcol, hkey⟩ := character_sort_resolves filters hlist hmem
    have hrun : (characterListStatement bits column name age_from age_to filters).run data
        = windowRows (sortRows (orderLe key descending Character.ID)
            (data.characters.filter (characterWhere name age_from age_to)))
            filters.limit (filters.offset bits) := by
      simp only [characterListStatement, characterSelect, hkey, hdir]
    have h := collectRows_window data _ _ _ _ filters hl1 ho0 hrun
    rw [length_sortRows, hoff] at h
    refine ⟨(((sortRows (orderLe key descending Character.ID)
      (data.characters.filter (characterWhere name age_from age_to))).drop
      (filters.PageSize * (filters.Page - 1)).toNat).take filters.limit.toNat), ?_, ?_⟩
    · unfold CharacterModel.totalRecords
      rw [hcol]
      exact h.1
    · unfold CharacterModel.GetAll
      rw [hcol]
      simp only
      rw [h.2]
  · intro hlist quote
    obtain ⟨column, key, hcol, hkey⟩ := quote_sort_resolves filters hlist hmem
    obtain ⟨matching, hmatching⟩ := filterRows_ok (quoteWhere quote) (quoteWhere_ok quote)
      data.quotes
    have hrun : (quoteListStatement bits column quote filters).run data
        = windowRows (sortRows (orderLe key descending Quote.ID) matching)
            filters.limit (filters.offset bits) := by
      simp only [quoteListStatement, quoteSelect, hkey, hdir, hmatching]
    have h := collectRows_window data _ _ _ _ filters hl1 ho0 hrun
    rw [length_sortRows, hoff] at h
    refine ⟨matching, (((sortRows (orderLe key descending Quote.ID) matching).drop
      (filters.PageSize * (filters.Page - 1)).toNat).take filters.limit.toNat),
      hmatching, ?_, ?_⟩
    · unfold QuoteModel.totalRecords
      rw [hcol]
      exact h.1
    · unfold QuoteModel.GetAll
      rw [hcol]
      simp only
      rw [h.2]

/-- Witness of C6 amended: page 1 of the sample data, one matching character and
one matching quote. -/
theorem GetAll_totalRecords_of_window_witness :
    CharacterModel.totalRecords 64 ⟨⟨sampleData, Faults.none⟩⟩ "" 0 0
        ⟨1, 20, "id", characterSortSafeList⟩ = some 1 ∧
    ∃ items, CharacterModel.GetAll 64 ⟨⟨sampleData, Faults.none⟩⟩ "" 0 0
        ⟨1, 20, "id", characterSortSafeList⟩
      = some ⟨items, calculateMetadata 1 1 20, none⟩ := by
  obtain ⟨items, h1, h2⟩ :=
    (GetAll_totalRecords_of_window 64 sampleData ⟨1, 20, "id", characterSortSafeList⟩
      (by decide) (by decide) (by decide) (by decide)).1 rfl "" 0 0
  exact ⟨h1, items, h2⟩

/-- Counterexample to C6 as stated: one character matches the (empty) filters,
page 2 with page size 20 is valid and lies past it, and `totalRecords` is 0,
not 1; the Metadata returned is the zero value. -/
theorem totalRecords_zero_past_last_row :
    ((sampleData.characters.filter (characterWhere "" 0 0)).length = 1) ∧
    CharacterModel.totalRecords 64 ⟨⟨sampleData, Faults.none⟩⟩ "" 0 0
        ⟨2, 20, "id", characterSortSafeList⟩ = some 0 ∧
    (CharacterModel.GetAll 64 ⟨⟨sampleData, Faults.none⟩⟩ "" 0 0
        ⟨2, 20, "id", characterSortSafeList⟩).map (fun r => r.metadata)
      = some Metadata.zero := by
  decide

/-! ### The ORDER BY clause (C7) -/

theorem characterListText_eq (column direction : String) :
    characterListText column direction
      = "\n\t\tSELECT count(*) OVER(), id, name, age, gender, status, nation, created_at, updated_at\n\t\tFROM characters\n\t\tWHERE (LOWER(name) = LOWER($1) OR $1 = '')\n\t\tAND (age >= $2 OR $2 = 0)\n\t\tAND (age <= $3 OR $3 = 0)\n\t\tORDER BY "
        ++ (column ++ (" " ++ (direction ++ ", id ASC\n\t\tLIMIT $4 OFFSET $5\n\t\t"))) := by
  rfl

theorem quoteListText_eq (column direction : String) :
    quoteListText column direction
      = "\n\t\tSELECT count(*) OVER(), id, quote, created_at, updated_at\n\t\tFROM quotes\n\t\tWHERE (quote ILIKE '%' || $1 || '%' OR $1 = '')\n\t\tORDER BY "
        ++ (column ++ (" " ++ (direction ++ ", id ASC\n\t\tLIMIT $2 OFFSET $3\n\t\t"))) := by
  rfl

theorem episodeListText_eq (column direction : String) :
    episodeListText column direction
      = "\n\t\tSELECT count(*) OVER(), id, title, air_date, createdAt, updatedAt\n\t\tFROM episode\n\t\tWHERE (LOWER(title) = LOWER($1) OR $1 = '')\n\t\tAND (age >= $10 OR $2 = 0)\n\t\tORDER BY "
        ++ (column ++ (" " ++ (direction ++ ", id ASC\n\t\tLIMIT $4 OFFSET $5\n\t\t"))) := by
  rfl

theorem QueryContext_answering {α : Type} (d : Driver) (data : Database) (st : Statement α) :
    (⟨data, Faults.answering d⟩ : DB).QueryContext st
      = delivered (st.answer d st.text st.args) := by
  unfold DB.QueryContext delivered
  simp only [Faults.answering, DB.respond]
  cases st.answer d st.text st.args with
  | error e => rfl
  | ok rows => simp only [scanOutcomes_no_fault]

/-- Claim C7. For every driver that answers the list queries from the text it
receives, and every filters value whose sort column resolves: the query text
that `CharacterModel.GetAll`, `QuoteModel.GetAll` and `EpisodeModel.GetAll`
hand to the driver is the text up to `ORDER BY `, then the resolved column, a
blank, the resolved direction and `, id ASC`, then the `LIMIT`/`OFFSET` line,
so the ORDER BY clause is exactly `<column> <direction>, id ASC`; `GetAll`
returns what it collects from the driver's answer to that text and the
argument slice. -/
theorem GetAll_order_by_clause (bits : Nat) (d : Driver) (data : Database)
    (filters : Filters) (column : String) (hcol : filters.sortColumn = some column) :
    (∀ (name : String) (age_from age_to : Int),
      CharacterModel.GetAll bits ⟨⟨data, Faults.answering d⟩⟩ name age_from age_to filters
        = some (collectRows (delivered (d.characters
            ("\n\t\tSELECT count(*) OVER(), id, name, age, gender, status, nation, created_at, updated_at\n\t\tFROM characters\n\t\tWHERE (LOWER(name) = LOWER($1) OR $1 = '')\n\t\tAND (age >= $2 OR $2 = 0)\n\t\tAND (age <= $3 OR $3 = 0)\n\t\tORDER BY "
              ++ (column ++ (" " ++ (filters.sortDirection
                ++ ", id ASC\n\t\tLIMIT $4 OFFSET $5\n\t\t"))))
            [.text name, .int age_from, .int age_to, .int filters.limit,
              .int (filters.offset bits)])) filters)) ∧
    (∀ quote : String,
      QuoteModel.GetAll bits ⟨⟨data, Faults.answering d⟩⟩ quote filters
        = some (collectRows (delivered (d.quotes
            ("\n\t\tSELECT count(*) OVER(), id, quote, created_at, updated_at\n\t\tFROM quotes\n\t\tWHERE (quote ILIKE '%' || $1 || '%' OR $1 = '')\n\t\tORDER BY "
              ++ (column ++ (" " ++ (filters.sortDirection
                ++ ", id ASC\n\t\tLIMIT $2 OFFSET $3\n\t\t"))))
            [.text quote, .int filters.limit, .int (filters.offset bits)])) filters)) ∧
    (∀ title air_date : String,
      EpisodeModel.GetAll bits ⟨⟨data, Faults.answering d⟩⟩ title air_date filters
        = some (collectRows (delivered (d.episodes
            ("\n\t\tSELECT count(*) OVER(), id, title, air_date, createdAt, updatedAt\n\t\tFROM episode\n\t\tWHERE (LOWER(title) = LOWER($1) OR $1 = '')\n\t\tAND (age >= $10 OR $2 = 0)\n\t\tORDER BY "
              ++ (column ++ (" " ++ (filters.sortDirection
                ++ ", id ASC\n\t\tLIMIT $4 OFFSET $5\n\t\t"))))
            [.text title, .text air_date, .int filters.limit,
              .int (filters.offset bits)])) filters)) := by
  refine ⟨?_, ?_, ?_⟩
  · intro name age_from age_to
    unfold CharacterModel.GetAll
    rw [hcol]
    simp only [QueryContext_answering]
    rw [← characterListText_eq]
    rfl
  · intro quote
    unfold QuoteModel.GetAll
    rw [hcol]
    simp only [QueryContext_answering]
    rw [← quoteListText_eq]
    rfl
  · intro title air_date
    unfold EpisodeModel.GetAll
    rw [hcol]
    simp only [QueryContext_answering]
    rw [← episodeListText_eq]
    rfl

/-- Witness of C7: for the sort token `-name` the driver receives from
`CharacterModel.GetAll` the text whose ORDER BY clause is
`name DESC, id ASC`. -/
theorem GetAll_order_by_clause_witness :
    (⟨1, 20, "-name", characterSortSafeList⟩ : Filters).sortColumn = some "name" ∧
    CharacterModel.GetAll 64 ⟨⟨sampleData, Faults.answering echoDriver⟩⟩ "" 0 0
        ⟨1, 20, "-name", characterSortSafeList⟩
      = some ⟨[], Metadata.zero, some "\n\t\tSELECT count(*) OVER(), id, name, age, gender, status, nation, created_at, updated_at\n\t\tFROM characters\n\t\tWHERE (LOWER(name) = LOWER($1) OR $1 = '')\n\t\tAND (age >= $2 OR $2 = 0)\n\t\tAND (age <= $3 OR $3 = 0)\n\t\tORDER BY name DESC, id ASC\n\t\tLIMIT $4 OFFSET $5\n\t\t"⟩ :=
  ⟨by decide,
    ((GetAll_order_by_clause 64 echoDriver sampleData ⟨1, 20, "-name", characterSortSafeList⟩
      "name" (by decide)).1 "" 0 0).trans rfl⟩

/-! ### String filters (C8) -/

theorem orderedInsert_perm {α : Type} (le : α → α → Bool) (a : α) (l : List α) :
    List.Perm (orderedInsert le a l) (a :: l) := by
  induction l with
  | nil => exact List.Perm.refl _
  | cons b l ih =>
    unfold orderedInsert
    split
    · exact List.Perm.refl _
    · exact (List.Perm.cons b ih).trans (List.Perm.swap a b l)

theorem sortRows_perm {α : Type} (le : α → α → Bool) (l : List α) :
    List.Perm (sortRows le l) l := by
  induction l with
  | nil => exact List.Perm.refl _
  | cons a l ih =>
    show List.Perm (orderedInsert le a (sortRows le l)) (a :: l)
    exact (orderedInsert_perm le a _).trans (List.Perm.cons a ih)

/-- On a server that executes the statement, with valid page and page size and
a sort token of the character safelist, `CharacterModel.GetAll` returns the
window of the stored characters that satisfy the `WHERE` clause, in some
order, with the Metadata of their count. -/
theorem CharacterModel_GetAll_rows (bits : Nat) (data : Database) (filters : Filters)
    (name : String) (age_from age_to : Int) (hbits : 32 ≤ bits)
    (hpage : 1 ≤ filters.Page ∧ filters.Page ≤ 10000000)
    (hsize : 1 ≤ filters.PageSize ∧ filters.PageSize ≤ 100)
    (hlist : filters.SortSafeList = characterSortSafeList)
    (hmem : filters.SortToken ∈ filters.SortSafeList) :
    ∃ sorted : List Character,
      List.Perm sorted (data.characters.filter (characterWhere name age_from age_to)) ∧
      CharacterModel.GetAll bits ⟨⟨data, Faults.none⟩⟩ name age_from age_to filters
        = some ⟨(sorted.drop (filters.PageSize * (filters.Page - 1)).toNat).take
              filters.PageSize.toNat,
            calculateMetadata
              (if filters.PageSize * (filters.Page - 1) < (sorted.length : Int)
                then (sorted.length : Int) else 0) filters.Page filters.PageSize, none⟩ := by
  have hoff := offset_exact bits filters hbits hpage hsize
  have hl1 : 1 ≤ filters.limit := hsize.1
  have ho0 : 0 ≤ filters.offset bits := by
    rw [hoff]
    exact mul_nonneg (by omega) (by omega)
  obtain ⟨descending, hdir⟩ := parseDirection_sortDirection filters
  obtain ⟨column, key, hcol, hkey⟩ := character_sort_resolves filters hlist hmem
  have hrun : (characterListStatement bits column name age_from age_to filters).run data
      = windowRows (sortRows (orderLe key descending Character.ID)
          (data.characters.filter (characterWhere name age_from age_to)))
          filters.limit (filters.offset bits) := by
    simp only [characterListStatement, characterSelect, hkey, hdir]
  have h := (collectRows_window data _ _ _ _ filters hl1 ho0 hrun).2
  rw [hoff] at h
  refine ⟨sortRows (orderLe key descending Character.ID)
    (data.characters.filter (characterWhere name age_from age_to)), sortRows_perm _ _, ?_⟩
  unfold CharacterModel.GetAll
  rw [hcol]
  simp only
  rw [h]
  rfl

theorem EpisodeModel_GetAll_fails (bits : Nat) (data : Database) (filters : Filters)
    (title air_date column : String) (hcol : filters.sortColumn = some column) :
    ∃ e, EpisodeModel.GetAll bits ⟨⟨data, Faults.none⟩⟩ title air_date filters
      = some ⟨[], Metadata.zero, some e⟩ := by
  refine ⟨"there is no parameter $10", ?_⟩
  unfold EpisodeModel.GetAll
  rw [hcol]
  rfl

/-- Claim C8, evaluated. On a server that executes the statement:
`CharacterModel.GetAll` returns the window of the stored characters whose name
equals the filter value after lower-casing, or of all of them when the filter
value is empty (among those the age bounds admit).  `EpisodeModel.GetAll`
applies no title filter: for every data set, title and resolved sort column
its statement cannot be bound and it returns an error and no row, also for the
empty title on a data set with one episode. -/
theorem name_filter_rows :
    (∀ (bits : Nat) (data : Database) (filters : Filters) (name : String)
        (age_from age_to : Int), 32 ≤ bits →
      1 ≤ filters.Page ∧ filters.Page ≤ 10000000 →
      1 ≤ filters.PageSize ∧ filters.PageSize ≤ 100 →
      filters.SortSafeList = characterSortSafeList →
      filters.SortToken ∈ filters.SortSafeList →
      ∃ sorted : List Character,
        List.Perm sorted (data.characters.filter (fun c =>
          (decide (name = "") || decide (sqlLower c.Name = sqlLower name))
            && characterAgeFromPredicate age_from c && characterAgeToPredicate age_to c)) ∧
        CharacterModel.GetAll bits ⟨⟨data, Faults.none⟩⟩ name age_from age_to filters
          = some ⟨(sorted.drop (filters.PageSize * (filters.Page - 1)).toNat).take
                filters.PageSize.toNat,
              calculateMetadata
                (if filters.PageSize * (filters.Page - 1) < (sorted.length : Int)
                  then (sorted.length : Int) else 0) filters.Page filters.PageSize, none⟩) ∧
    (∀ (bits : Nat) (data : Database) (filters : Filters) (title air_date column : String),
      filters.sortColumn = some column →
      ∃ e, EpisodeModel.GetAll bits ⟨⟨data, Faults.none⟩⟩ title air_date filters
        = some ⟨[], Metadata.zero, some e⟩) ∧
    (oneEpisode.episodes.length = 1 ∧
      ∃ e, EpisodeModel.GetAll 64 ⟨⟨oneEpisode, Faults.none⟩⟩ "" ""
          ⟨1, 20, "id", episodeSortSafeList⟩
        = some ⟨[], Metadata.zero, some e⟩) := by
  refine ⟨?_, ?_, rfl, EpisodeModel_GetAll_fails _ _ _ _ _ "id" (by decide)⟩
  · intro bits data filters name age_from age_to hbits hpage hsize hlist hmem
    obtain ⟨sorted, hperm, hget⟩ :=
      CharacterModel_GetAll_rows bits data filters name age_from age_to hbits hpage hsize
        hlist hmem
    refine ⟨sorted, ?_, hget⟩
    have hfilter : data.characters.filter (characterWhere name age_from age_to)
        = data.characters.filter (fun c =>
            (decide (name = "") || decide (sqlLower c.Name = sqlLower name))
              && characterAgeFromPredicate age_from c && characterAgeToPredicate age_to c) := by
      apply List.filter_congr
      intro c _
      simp only [characterWhere, characterNamePredicate]
      by_cases h1 : name = "" <;> by_cases h2 : sqlLower c.Name = sqlLower name <;>
        simp [h1, h2]
    rw [← hfilter]
    exact hperm
  · intro bits data filters title air_date column hcol
    exact EpisodeModel_GetAll_fails bits data filters title air_date column hcol

/-- Witness of C8: the filter `AANG` on two stored characters returns the
character named `Aang`. -/
theorem name_filter_rows_witness :
    CharacterModel.GetAll 64 ⟨⟨twoCharacters, Faults.none⟩⟩ "AANG" 0 0
        ⟨1, 20, "id", characterSortSafeList⟩
      = some ⟨[aang], calculateMetadata 1 1 20, none⟩ ∧
    ∃ sorted : List Character,
      List.Perm sorted (twoCharacters.characters.filter (fun c =>
        (decide ("AANG" = "") || decide (sqlLower c.Name = sqlLower "AANG"))
          && characterAgeFromPredicate 0 c && characterAgeToPredicate 0 c)) ∧
      CharacterModel.GetAll 64 ⟨⟨twoCharacters, Faults.none⟩⟩ "AANG" 0 0
          ⟨1, 20, "id", characterSortSafeList⟩
        = some ⟨(sorted.drop ((20 : Int) * (1 - 1)).toNat).take (20 : Int).toNat,
            calculateMetadata
              (if (20 : Int) * (1 - 1) < (sorted.length : Int)
                then (sorted.length : Int) else 0) 1 20, none⟩ :=
  ⟨rfl, name_filter_rows.1 64 twoCharacters ⟨1, 20, "id", characterSortSafeList⟩ "AANG" 0 0
    (by decide) (by decide) (by decide) rfl (by decide)⟩

/-! ### The quote filter (C9) -/

theorem toLower_not_meta (c : Char) (h : likeMeta c = false) : likeMeta c.toLower = false := by
  unfold Char.toLower
  simp only []
  split
  · rename_i hr
    obtain ⟨h1, h2⟩ := hr
    generalize c.toNat = n at h1 h2
    interval_cases n <;> decide
  · exact h

theorem parseLike_plain_cons (c : Char) (rest : List Char) (h : likeMeta c = false) :
    parseLike (c :: rest) = (parseLike rest).map (fun ts => LikeToken.lit c :: ts) := by
  have h1 : c ≠ '%' := by rintro rfl; exact absurd h (by decide)
  have h2 : c ≠ '_' := by rintro rfl; exact absurd h (by decide)
  have h3 : c ≠ '\\' := by rintro rfl; exact absurd h (by decide)
  have key : ∀ r, parseLike rest = r →
      parseLike (c :: rest) = r.map (fun ts => LikeToken.lit c :: ts) := by
    intro r hr
    unfold parseLike
    split <;> simp_all
  exact key _ rfl

theorem parseLike_plain_append (l rest : List Char) (h : ∀ c ∈ l, likeMeta c = false) :
    parseLike (l ++ rest)
      = (parseLike rest).map (fun ts => l.map LikeToken.lit ++ ts) := by
  induction l with
  | nil => simp
  | cons c l ih =>
    rw [List.cons_append, parseLike_plain_cons c _ (h c (List.mem_cons_self _ _)),
      ih (fun d hd => h d (List.mem_cons_of_mem _ hd))]
    cases parseLike rest <;> simp

theorem likeMatch_lits (l : List Char) (rest : List LikeToken) (t : List Char) :
    likeMatch (l.map LikeToken.lit ++ rest) t = true
      ↔ ∃ t', t = l ++ t' ∧ likeMatch rest t' = true := by
  induction l generalizing t with
  | nil => simp
  | cons c l ih =>
    cases t with
    | nil =>
      show likeMatch (LikeToken.lit c :: (l.map LikeToken.lit ++ rest)) [] = true ↔ _
      rw [likeMatch]
      simp
    | cons d t =>
      show likeMatch (LikeToken.lit c :: (l.map LikeToken.lit ++ rest)) (d :: t) = true ↔ _
      rw [likeMatch, Bool.and_eq_true, beq_iff_eq, ih]
      constructor
      · rintro ⟨rfl, t', rfl, h⟩
        exact ⟨t', rfl, h⟩
      · rintro ⟨t', heq, h⟩
        simp only [List.cons_append, List.cons.injEq] at heq
        exact ⟨heq.1.symm, t', heq.2, h⟩

theorem likeMatch_anySeq (p : List LikeToken) (t : List Char) :
    likeMatch (LikeToken.anySeq :: p) t = true ↔ ∃ s, s <:+ t ∧ likeMatch p s = true := by
  rw [likeMatch, List.any_eq_true]
  simp only [List.mem_tails]

theorem likeMatch_contains (l t : List Char) :
    likeMatch (LikeToken.anySeq :: (l.map LikeToken.lit ++ [LikeToken.anySeq])) t = true
      ↔ l <:+: t := by
  have hany : ∀ s : List Char, likeMatch [LikeToken.anySeq] s = true := by
    intro s
    rw [likeMatch_anySeq]
    exact ⟨[], List.nil_suffix, rfl⟩
  rw [likeMatch_anySeq, List.infix_iff_prefix_suffix]
  constructor
  · rintro ⟨s, hs, hm⟩
    obtain ⟨t', rfl, -⟩ := (likeMatch_lits l _ s).1 hm
    exact ⟨_, List.prefix_append _ _, hs⟩
  · rintro ⟨s, ⟨t', rfl⟩, hs⟩
    exact ⟨_, hs, (likeMatch_lits l _ _).2 ⟨t', rfl, hany t'⟩⟩

/-- Claim C9, amended. For every non-empty quote filter value that holds none of
the `LIKE` metacharacters `%`, `_` and `\`, a quote row satisfies the predicate
of `QuoteModel.GetAll` exactly when the row's quote text contains the filter
value as a substring compared case-insensitively (both lower-cased, as `ILIKE`
does). -/
theorem quoteWhere_contains_ignoring_case (quote : String) (q : Quote) (hne : quote ≠ "")
    (hplain : ∀ c ∈ quote.toList, likeMeta c = false) :
    quoteWhere quote q
      = .ok (decide ((sqlLower quote).toList <:+: (sqlLower q.Quote).toList)) := by
  have hlow : ∀ c ∈ quote.toList.map Char.toLower, likeMeta c = false := by
    intro c hc
    obtain ⟨d, hd, rfl⟩ := List.mem_map.1 hc
    exact toLower_not_meta d (hplain d hd)
  have hparse : parseLike (sqlLower ("%" ++ quote ++ "%")).toList
      = some (LikeToken.anySeq ::
          ((quote.toList.map Char.toLower).map LikeToken.lit ++ [LikeToken.anySeq])) := by
    rw [sqlLower_pattern]
    have h1 : parseLike ('%' :: (quote.toList.map Char.toLower ++ ['%']))
        = (parseLike (quote.toList.map Char.toLower ++ ['%'])).map
            (fun ts => LikeToken.anySeq :: ts) := by
      rw [parseLike]
    rw [h1, parseLike_plain_append _ _ hlow]
    rfl
  have hq : (quote == "") = false := by simpa using hne
  have hl : (sqlLower quote).toList = quote.toList.map Char.toLower := rfl
  unfold quoteWhere sqlILike
  rw [hparse]
  simp only [hq, Bool.or_false]
  congr 1
  rw [Bool.eq_iff_iff, likeMatch_contains, hl]
  simp

/-- Witness of C9 amended: the filter `hello` on the quote `Hello there`. -/
theorem quoteWhere_contains_ignoring_case_witness :
    "hello" ≠ "" ∧ (∀ c ∈ "hello".toList, likeMeta c = false) ∧
    quoteWhere "hello" ⟨1, "Hello there", 0, 0⟩
      = .ok (decide ((sqlLower "hello").toList <:+: (sqlLower "Hello there").toList)) :=
  ⟨by decide, by decide,
    quoteWhere_contains_ignoring_case "hello" ⟨1, "Hello there", 0, 0⟩ (by decide) (by decide)⟩

/-- Counterexample to C9 as stated: the non-empty filter `hello` is not a
case-sensitive substring of `Hello there`, yet the row satisfies the
predicate. -/
theorem quoteWhere_not_case_sensitive :
    "hello" ≠ "" ∧ quoteWhere "hello" ⟨1, "Hello there", 0, 0⟩ = .ok true ∧
    ¬ ("hello".toList <:+: "Hello there".toList) :=
  ⟨by decide, rfl, by decide⟩

/-! ### The age bounds (C10) -/

/-- Claim C10. On a server that executes the statement, for every data set,
name, `age_from` and `age_to` (valid page and page size, sort token of the
character safelist): the rows from which `CharacterModel.GetAll` cuts its
window and counts its total are exactly the stored characters that satisfy the
name predicate and, on each side, either a bound equal to 0 or the comparison
`age >= age_from`, `age <= age_to`, the three combined by logical AND. -/
theorem GetAll_age_bounds (bits : Nat) (data : Database) (filters : Filters)
    (name : String) (age_from age_to : Int) (hbits : 32 ≤ bits)
    (hpage : 1 ≤ filters.Page ∧ filters.Page ≤ 10000000)
    (hsize : 1 ≤ filters.PageSize ∧ filters.PageSize ≤ 100)
    (hlist : filters.SortSafeList = characterSortSafeList)
    (hmem : filters.SortToken ∈ filters.SortSafeList) :
    ∃ sorted : List Character,
      List.Perm sorted (data.characters.filter (fun c =>
        characterNamePredicate name c
          && (decide (age_from = 0) || decide (age_from ≤ c.Age))
          && (decide (age_to = 0) || decide (c.Age ≤ age_to)))) ∧
      CharacterModel.GetAll bits ⟨⟨data, Faults.none⟩⟩ name age_from age_to filters
        = some ⟨(sorted.drop (filters.PageSize * (filters.Page - 1)).toNat).take
              filters.PageSize.toNat,
            calculateMetadata
              (if filters.PageSize * (filters.Page - 1) < (sorted.length : Int)
                then (sorted.length : Int) else 0) filters.Page filters.PageSize, none⟩ := by
  obtain ⟨sorted, hperm, hget⟩ :=
    CharacterModel_GetAll_rows bits data filters name age_from age_to hbits hpage hsize
      hlist hmem
  refine ⟨sorted, ?_, hget⟩
  have hfilter : data.characters.filter (characterWhere name age_from age_to)
      = data.characters.filter (fun c =>
          characterNamePredicate name c
            && (decide (age_from = 0) || decide (age_from ≤ c.Age))
            && (decide (age_to = 0) || decide (c.Age ≤ age_to))) := by
    apply List.filter_congr
    intro c _
    simp only [characterWhere, characterAgeFromPredicate, characterAgeToPredicate]
    by_cases h1 : age_from = 0 <;> by_cases h2 : age_to = 0 <;>
      by_cases h3 : age_from ≤ c.Age <;> by_cases h4 : c.Age ≤ age_to <;>
      simp [h1, h2, h3, h4]
  rw [← hfilter]
  exact hperm

/-- Witness of C10: with the lower bound 100 and no upper bound, of the
characters of age 112 and 14 only the first is returned. -/
theorem GetAll_age_bounds_witness :
    CharacterModel.GetAll 64 ⟨⟨twoCharacters, Faults.none⟩⟩ "" 100 0
        ⟨1, 20, "id", characterSortSafeList⟩
      = some ⟨[aang], calculateMetadata 1 1 20, none⟩ ∧
    ∃ sorted : List Character,
      List.Perm sorted (twoCharacters.characters.filter (fun c =>
        characterNamePredicate "" c
          && (decide ((100 : Int) = 0) || decide ((100 : Int) ≤ c.Age))
          && (decide ((0 : Int) = 0) || decide (c.Age ≤ (0 : Int))))) ∧
      CharacterModel.GetAll 64 ⟨⟨twoCharacters, Faults.none⟩⟩ "" 100 0
          ⟨1, 20, "id", characterSortSafeList⟩
        = some ⟨(sorted.drop ((20 : Int) * (1 - 1)).toNat).take (20 : Int).toNat,
            calculateMetadata
              (if (20 : Int) * (1 - 1) < (sorted.length : Int)
                then (sorted.length : Int) else 0) 1 20, none⟩ :=
  ⟨rfl, GetAll_age_bounds 64 twoCharacters ⟨1, 20, "id", characterSortSafeList⟩ "" 100 0
    (by decide) (by decide) (by decide) rfl (by decide)⟩

/-! ### Errors of GetAll (C11) -/

theorem scanRows_failed {α : Type} (pre : List (Int × α)) (e : Error)
    (post : List (Except Error (Int × α))) (start : Int) (acc : List α) :
    scanRows (pre.map Except.ok ++ Except.error e :: post) start acc = .error e := by
  induction pre generalizing start acc with
  | nil => rfl
  | cons r rest ih =>
    obtain ⟨total, row⟩ := r
    simp only [List.map_cons, List.cons_append, scanRows]
    exact ih _ _

theorem scanRows_all_ok {α : Type} (scanned : List (Int × α)) (start : Int) (acc : List α) :
    ∃ total, scanRows (scanned.map Except.ok) start acc
      = .ok (total, acc ++ scanned.map Prod.snd) := by
  induction scanned generalizing start acc with
  | nil => exact ⟨start, by simp [scanRows]⟩
  | cons r rest ih =>
    obtain ⟨total, row⟩ := r
    obtain ⟨t, ht⟩ := ih total (acc ++ [row])
    refine ⟨t, ?_⟩
    simp only [List.map_cons, scanRows, ht, List.append_assoc, List.singleton_append]

theorem collectRows_all_or_nothing {α : Type} (res : Except Error (Rows α))
    (filters : Filters) : AllOrNothing res (some (collectRows res filters)) := by
  refine ⟨?_, ?_, ?_, ?_⟩
  · intro e he
    subst he
    rfl
  · intro rows pre e post he hs
    subst he
    simp only [collectRows, hs, scanRows_failed]
  · intro rows scanned e he hs herr
    subst he
    obtain ⟨t, ht⟩ := scanRows_all_ok scanned 0 []
    simp only [collectRows, hs, ht, herr]
  · intro rows scanned he hs herr
    subst he
    obtain ⟨t, ht⟩ := scanRows_all_ok scanned 0 []
    refine ⟨calculateMetadata t filters.Page filters.PageSize, ?_⟩
    simp only [collectRows, hs, ht, herr, List.nil_append]

/-- Claim C11. In `CharacterModel.GetAll`, `QuoteModel.GetAll` and
`EpisodeModel.GetAll`, for every database handle and every outcome of
`QueryContext`: when the execution fails, when the scan of a row fails (after
any number of rows scanned without failure) or when `rows.Err()` reports an
error, `GetAll` returns the nil slice, the zero Metadata and that error, so no
row scanned before the failure is returned; with no failure it returns every
scanned row in scan order with a nil error. -/
theorem GetAll_all_or_nothing (bits : Nat) (filters : Filters) (column : String)
    (hcol : filters.sortColumn = some column) :
    (∀ (m : CharacterModel) (name : String) (age_from age_to : Int),
      AllOrNothing
        (m.DB.QueryContext (characterListStatement bits column name age_from age_to filters))
        (CharacterModel.GetAll bits m name age_from age_to filters)) ∧
    (∀ (m : QuoteModel) (quote : String),
      AllOrNothing (m.DB.QueryContext (quoteListStatement bits column quote filters))
        (QuoteModel.GetAll bits m quote filters)) ∧
    (∀ (m : EpisodeModel) (title air_date : String),
      AllOrNothing
        (m.DB.QueryContext (episodeListStatement bits column title air_date filters))
        (EpisodeModel.GetAll bits m title air_date filters)) := by
  refine ⟨?_, ?_, ?_⟩
  · intro m name age_from age_to
    have h : CharacterModel.GetAll bits m name age_from age_to filters
        = some (collectRows
            (m.DB.QueryContext (characterListStatement bits column name age_from age_to filters))
            filters) := by
      unfold CharacterModel.GetAll
      rw [hcol]
    rw [h]
    exact collectRows_all_or_nothing _ _
  · intro m quote
    have h : QuoteModel.GetAll bits m quote filters
        = some (collectRows (m.DB.QueryContext (quoteListStatement bits column quote filters))
            filters) := by
      unfold QuoteModel.GetAll
      rw [hcol]
    rw [h]
    exact collectRows_all_or_nothing _ _
  · intro m title air_date
    have h : EpisodeModel.GetAll bits m title air_date filters
        = some (collectRows
            (m.DB.QueryContext (episodeListStatement bits column title air_date filters))
            filters) := by
      unfold EpisodeModel.GetAll
      rw [hcol]
    rw [h]
    exact collectRows_all_or_nothing _ _

/-- Witness of C11: with two characters stored and a failure at the scan of the
second row, `CharacterModel.GetAll` returns the error and not the first row;
`EpisodeModel.GetAll`, on a driver that answers its query with two rows, does
the same when the scan of the second row fails, and returns both rows in order
with a nil error when nothing fails. -/
theorem GetAll_all_or_nothing_witness :
    (⟨1, 20, "id", characterSortSafeList⟩ : Filters).sortColumn = some "id" ∧
    (⟨1, 20, "id", episodeSortSafeList⟩ : Filters).sortColumn = some "id" ∧
    CharacterModel.GetAll 64 ⟨⟨twoCharacters, secondScanFails⟩⟩ "" 0 0
        ⟨1, 20, "id", characterSortSafeList⟩
      = some ⟨[], Metadata.zero, some "scan failed"⟩ ∧
    EpisodeModel.GetAll 64 ⟨⟨sampleData, secondEpisodeScanFails⟩⟩ "" ""
        ⟨1, 20, "id", episodeSortSafeList⟩
      = some ⟨[], Metadata.zero, some "scan failed"⟩ ∧
    ∃ metadata, EpisodeModel.GetAll 64 ⟨⟨sampleData, Faults.answering twoEpisodeDriver⟩⟩ "" ""
        ⟨1, 20, "id", episodeSortSafeList⟩
      = some ⟨[icebergEpisode, returnsEpisode], metadata, none⟩ :=
  ⟨by decide, by decide,
    ((GetAll_all_or_nothing 64 ⟨1, 20, "id", characterSortSafeList⟩ "id" (by decide)).1
      ⟨⟨twoCharacters, secondScanFails⟩⟩ "" 0 0).2.1
      ⟨[.ok (2, aang), .error "scan failed"], none⟩ [(2, aang)] "scan failed" [] rfl rfl,
    ((GetAll_all_or_nothing 64 ⟨1, 20, "id", episodeSortSafeList⟩ "id" (by decide)).2.2
      ⟨⟨sampleData, secondEpisodeScanFails⟩⟩ "" "").2.1
      ⟨[.ok (2, icebergEpisode), .error "scan failed"], none⟩ [(2, icebergEpisode)]
      "scan failed" [] rfl rfl,
    ((GetAll_all_or_nothing 64 ⟨1, 20, "id", episodeSortSafeList⟩ "id" (by decide)).2.2
      ⟨⟨sampleData, Faults.answering twoEpisodeDriver⟩⟩ "" "").2.2.2
      ⟨[.ok (2, icebergEpisode), .ok (2, returnsEpisode)], none⟩
      [(2, icebergEpisode), (2, returnsEpisode)] rfl rfl rfl⟩

/-! ### The safelists of the handlers (C12) -/

theorem dash_append_eq (t : String) (cs : List Char) :
    "-" ++ t = String.mk ('-' :: cs) ↔ t = String.mk cs := by
  constructor
  · intro h
    have hd := congrArg String.data h
    simp only [String.data_append] at hd
    have ht : t.data = cs := by simpa using hd
    exact String.ext ht
  · rintro rfl
    rfl

theorem dash_append_ne (t : String) (c : Char) (cs : List Char) (hc : c ≠ '-') :
    "-" ++ t ≠ String.mk (c :: cs) := by
  intro h
  have hd := congrArg String.data h
  simp only [String.data_append] at hd
  have : '-' = c := by
    have := List.head_eq_of_cons_eq hd
    exact this
  exact hc this.symm

theorem characterSortSafeList_paired (t : String) (ht : t.toList.head? ≠ some '-') :
    t ∈ characterSortSafeList ↔ "-" ++ t ∈ characterSortSafeList := by
  simp only [characterSortSafeList, List.mem_cons, List.mem_singleton, List.not_mem_nil,
    or_false]
  constructor
  · rintro (h | h | h | h | h | h) <;> subst h <;> first | decide | exact absurd rfl ht
  · rintro (h | h | h | h | h | h)
    · exact absurd h (dash_append_ne t 'i' _ (by decide))
    · exact absurd h (dash_append_ne t 'n' _ (by decide))
    · exact absurd h (dash_append_ne t 'a' _ (by decide))
    · exact Or.inl ((dash_append_eq t _).1 h)
    · exact Or.inr (Or.inl ((dash_append_eq t _).1 h))
    · exact Or.inr (Or.inr (Or.inl ((dash_append_eq t _).1 h)))

theorem quoteSortSafeList_paired (t : String) (ht : t.toList.head? ≠ some '-') :
    t ∈ quoteSortSafeList ↔ "-" ++ t ∈ quoteSortSafeList := by
  simp only [quoteSortSafeList, List.mem_cons, List.mem_singleton, List.not_mem_nil,
    or_false]
  constructor
  · rintro (h | h | h | h | h | h | h | h) <;> subst h <;>
      first | decide | exact absurd rfl ht
  · rintro (h | h | h | h | h | h | h | h)
    · exact absurd h (dash_append_ne t 'i' _ (by decide))
    · exact absurd h (dash_append_ne t 'q' _ (by decide))
    · exact absurd h (dash_append_ne t 'c' _ (by decide))
    · exact absurd h (dash_append_ne t 'u' _ (by decide))
    · exact Or.inl ((dash_append_eq t _).1 h)
    · exact Or.inr (Or.inl ((dash_append_eq t _).1 h))
    · exact Or.inr (Or.inr (Or.inl ((dash_append_eq t _).1 h)))
    · exact Or.inr (Or.inr (Or.inr (Or.inl ((dash_append_eq t _).1 h))))

theorem episodeSortSafeList_paired (t : String) (ht : t.toList.head? ≠ some '-') :
    t ∈ episodeSortSafeList ↔ "-" ++ t ∈ episodeSortSafeList := by
  simp only [episodeSortSafeList, List.mem_cons, List.mem_singleton, List.not_mem_nil,
    or_false]
  constructor
  · rintro (h | h | h | h | h | h) <;> subst h <;> first | decide | exact absurd rfl ht
  · rintro (h | h | h | h | h | h)
    · exact absurd h (dash_append_ne t 'i' _ (by decide))
    · exact absurd h (dash_append_ne t 't' _ (by decide))
    · exact absurd h (dash_append_ne t 'a' _ (by decide))
    · exact Or.inl ((dash_append_eq t _).1 h)
    · exact Or.inr (Or.inl ((dash_append_eq t _).1 h))
    · exact Or.inr (Or.inr (Or.inl ((dash_append_eq t _).1 h)))

theorem getCharacterList_calls (app : Application) (qs : QueryValues) :
    (getCharacterList app qs).calls = [] ∨
    (getCharacterList app qs).calls
      = [ModelCall.charactersGetAll (characterListInput app qs).1
          (characterListInput app qs).2.1 (characterListInput app qs).2.1
          (characterListInput app qs).2.2.1] := by
  unfold getCharacterList
  cases hv : (characterListInput app qs).2.2.2.Valid with
  | false => left; simp [hv]
  | true =>
    right
    simp only [hv]
    cases hg : app.models.Characters.GetAll app.intBits (characterListInput app qs).1
        (characterListInput app qs).2.1 (characterListInput app qs).2.1
        (characterListInput app qs).2.2.1 with
    | none => simp [hg]
    | some res =>
      cases he : res.err <;> simp [hg, he]

theorem getQuoteList_calls (app : Application) (qs : QueryValues) :
    (getQuoteList app qs).calls = [] ∨
    (getQuoteList app qs).calls
      = [ModelCall.quotesGetAll (quoteListInput app qs).1 (quoteListInput app qs).2.1] := by
  unfold getQuoteList
  cases hv : (quoteListInput app qs).2.2.Valid with
  | false => left; simp [hv]
  | true =>
    right
    simp only [hv]
    cases hg : app.models.Quotes.GetAll app.intBits (quoteListInput app qs).1
        (quoteListInput app qs).2.1 with
    | none => simp [hg]
    | some res =>
      cases he : res.err <;> simp [hg, he]

theorem getEpisodeList_calls (app : Application) (qs : QueryValues) :
    (getEpisodeList app qs).calls = [] ∨
    (getEpisodeList app qs).calls
      = [ModelCall.episodesGetAll (episodeListInput app qs).1 (episodeListInput app qs).2.1
          (episodeListInput app qs).2.2.1] := by
  unfold getEpisodeList
  cases hv : (episodeListInput app qs).2.2.2.Valid with
  | false => left; simp [hv]
  | true =>
    right
    simp only [hv]
    cases hg : app.models.Episodes.GetAll app.intBits (episodeListInput app qs).1
        (episodeListInput app qs).2.1 (episodeListInput app qs).2.2.1 with
    | none => simp [hg]
    | some res =>
      cases he : res.err <;> simp [hg, he]

/-- Claim C12. For every application and query string, the safelist in the
filters that a list handler validates and hands to `GetAll` is the handler's
own constant: `[id, name, age, -id, -name, -age]` in `getCharacterList`, and
the quote and episode lists in the other two.  In each of the three lists the
default token `id` is present, and a token `t` that does not start with `-` is
present exactly when `-t` is. -/
theorem handler_safelists_fixed (app : Application) (qs : QueryValues) :
    ((characterListInput app qs).2.2.1.SortSafeList
        = ["id", "name", "age", "-id", "-name", "-age"] ∧
      (quoteListInput app qs).2.1.SortSafeList = quoteSortSafeList ∧
      (episodeListInput app qs).2.2.1.SortSafeList = episodeSortSafeList) ∧
    ((∀ name age_from age_to filters,
        ModelCall.charactersGetAll name age_from age_to filters ∈ (getCharacterList app qs).calls →
        filters.SortSafeList = characterSortSafeList) ∧
      (∀ quote filters,
        ModelCall.quotesGetAll quote filters ∈ (getQuoteList app qs).calls →
        filters.SortSafeList = quoteSortSafeList) ∧
      (∀ title air_date filters,
        ModelCall.episodesGetAll title air_date filters ∈ (getEpisodeList app qs).calls →
        filters.SortSafeList = episodeSortSafeList)) ∧
    (∀ safelist ∈ [characterSortSafeList, quoteSortSafeList, episodeSortSafeList],
      "id" ∈ safelist ∧
      ∀ t : String, t.toList.head? ≠ some '-' → (t ∈ safelist ↔ "-" ++ t ∈ safelist)) := by
  refine ⟨⟨rfl, rfl, rfl⟩, ⟨?_, ?_, ?_⟩, ?_⟩
  · intro name age_from age_to filters hmem
    rcases getCharacterList_calls app qs with h | h
    · rw [h] at hmem; cases hmem
    · rw [h, List.mem_singleton] at hmem
      injection hmem with _ _ _ hf
      rw [hf]; rfl
  · intro quote filters hmem
    rcases getQuoteList_calls app qs with h | h
    · rw [h] at hmem; cases hmem
    · rw [h, List.mem_singleton] at hmem
      injection hmem with _ hf
      rw [hf]; rfl
  · intro title air_date filters hmem
    rcases getEpisodeList_calls app qs with h | h
    · rw [h] at hmem; cases hmem
    · rw [h, List.mem_singleton] at hmem
      injection hmem with _ _ hf
      rw [hf]; rfl
  · intro safelist hs
    simp only [List.mem_cons, List.mem_singleton, List.not_mem_nil, or_false] at hs
    rcases hs with h | h | h <;> subst h
    · exact ⟨by decide, characterSortSafeList_paired⟩
    · exact ⟨by decide, quoteSortSafeList_paired⟩
    · exact ⟨by decide, episodeSortSafeList_paired⟩

/-- Witness of C12: `name` does not start with `-`, and both `name` and `-name`
are in the character safelist. -/
theorem handler_safelists_fixed_witness :
    "name".toList.head? ≠ some '-' ∧
    ("name" ∈ characterSortSafeList ↔ "-" ++ "name" ∈ characterSortSafeList) :=
  ⟨by decide,
    ((handler_safelists_fixed sampleApp []).2.2 characterSortSafeList (by decide)).2 "name"
      (by decide)⟩

/-! ### Placeholders and arguments (C13) -/

/-- Claim C13, evaluated. For page 3 with page size 20 (limit 20, offset 40): the
character and quote statements supply exactly their placeholders, with `LIMIT`
bound to `limit()` and `OFFSET` to `offset()`.  The episode statement does not:
its text uses `$1`, `$10`, `$2`, `$4` and `$5` while the slice has four
arguments, the placeholder of `LIMIT` is `$4`, which the slice binds to
`offset()`, the placeholder of `OFFSET` is `$5`, which has no argument, and
`EpisodeModel.GetAll` returns an error. -/
theorem episode_placeholders_not_supplied :
    (placeholdersSupplied
        (characterListStatement 64 "id" "" 0 0 (pageThree characterSortSafeList)).text
        (characterListStatement 64 "id" "" 0 0 (pageThree characterSortSafeList)).args = true ∧
      (placeholderAfter "LIMIT"
        (characterListStatement 64 "id" "" 0 0 (pageThree characterSortSafeList)).text).bind
          (boundTo (characterListStatement 64 "id" "" 0 0
            (pageThree characterSortSafeList)).args)
        = some (.int (pageThree characterSortSafeList).limit) ∧
      (placeholderAfter "OFFSET"
        (characterListStatement 64 "id" "" 0 0 (pageThree characterSortSafeList)).text).bind
          (boundTo (characterListStatement 64 "id" "" 0 0
            (pageThree characterSortSafeList)).args)
        = some (.int ((pageThree characterSortSafeList).offset 64))) ∧
    (placeholdersSupplied
        (quoteListStatement 64 "id" "" (pageThree quoteSortSafeList)).text
        (quoteListStatement 64 "id" "" (pageThree quoteSortSafeList)).args = true ∧
      (placeholderAfter "LIMIT"
        (quoteListStatement 64 "id" "" (pageThree quoteSortSafeList)).text).bind
          (boundTo (quoteListStatement 64 "id" "" (pageThree quoteSortSafeList)).args)
        = some (.int (pageThree quoteSortSafeList).limit) ∧
      (placeholderAfter "OFFSET"
        (quoteListStatement 64 "id" "" (pageThree quoteSortSafeList)).text).bind
          (boundTo (quoteListStatement 64 "id" "" (pageThree quoteSortSafeList)).args)
        = some (.int ((pageThree quoteSortSafeList).offset 64))) ∧
    (placeholders (episodeListStatement 64 "id" "" "" (pageThree episodeSortSafeList)).text
        = [1, 1, 10, 2, 4, 5] ∧
      (episodeListStatement 64 "id" "" "" (pageThree episodeSortSafeList)).args
        = [.text "", .text "", .int 20, .int 40] ∧
      placeholdersSupplied
        (episodeListStatement 64 "id" "" "" (pageThree episodeSortSafeList)).text
        (episodeListStatement 64 "id" "" "" (pageThree episodeSortSafeList)).args = false ∧
      (pageThree episodeSortSafeList).limit = 20 ∧
      (pageThree episodeSortSafeList).offset 64 = 40 ∧
      (placeholderAfter "LIMIT"
        (episodeListStatement 64 "id" "" "" (pageThree episodeSortSafeList)).text).bind
          (boundTo (episodeListStatement 64 "id" "" "" (pageThree episodeSortSafeList)).args)
        = some (.int 40) ∧
      (placeholderAfter "OFFSET"
        (episodeListStatement 64 "id" "" "" (pageThree episodeSortSafeList)).text).bind
          (boundTo (episodeListStatement 64 "id" "" "" (pageThree episodeSortSafeList)).args)
        = none ∧
      (EpisodeModel.GetAll 64 ⟨⟨sampleData, Faults.none⟩⟩ "" ""
          (pageThree episodeSortSafeList)).map (fun r => (r.items, r.err))
        = some ([], some "there is no parameter $10")) := by
  refine ⟨⟨?_, ?_, ?_⟩, ⟨?_, ?_, ?_⟩, ⟨?_, ?_, ?_, ?_, ?_, ?_, ?_, ?_⟩⟩ <;> decide

/-! ### Timeouts of the lookups (C14) -/

/-- Claim C14, evaluated. The context of `Get` of the three models, of
`CharacterModel.GetAll`, `EpisodeModel.GetAll` and `GetByQuote` has a timeout
of 3 seconds; the context of `QuoteModel.GetAll` has a timeout of 7 seconds,
and `GetByEpisode` and `GetQuotesByCharacterID` issue their query with no
context and so with no timeout. -/
theorem lookup_timeouts :
    ((∀ id, (characterGetStatement id).timeoutSeconds = some 3) ∧
      (∀ id, (episodeGetStatement id).timeoutSeconds = some 3) ∧
      (∀ id, (quoteGetStatement id).timeoutSeconds = some 3) ∧
      (∀ bits column name age_from age_to filters,
        (characterListStatement bits column name age_from age_to filters).timeoutSeconds
          = some 3) ∧
      (∀ bits column title air_date filters,
        (episodeListStatement bits column title air_date filters).timeoutSeconds = some 3) ∧
      (∀ id, (characterByQuoteStatement id).timeoutSeconds = some 3)) ∧
    (∀ bits column quote filters,
      (quoteListStatement bits column quote filters).timeoutSeconds = some 7) ∧
    (∀ id, (charactersByEpisodeStatement id).timeoutSeconds = none) ∧
    (∀ id, (quotesByCharacterStatement id).timeoutSeconds = none) := by
  refine ⟨⟨?_, ?_, ?_, ?_, ?_, ?_⟩, ?_, ?_, ?_⟩
  · intro id; rfl
  · intro id; rfl
  · intro id; rfl
  · intro bits column name age_from age_to filters; rfl
  · intro bits column title air_date filters; rfl
  · intro id; rfl
  · intro bits column quote filters; rfl
  · intro id; rfl
  · intro id; rfl

/-! ### Not found and failed lookups (C15) -/

theorem QueryRow_error_kind {α : Type} (db : DB) (st : Lookup α) (err : GoError)
    (h : db.QueryRow st = .error err) : err = .ErrNoRows ∨ ∃ e, err = .driver e := by
  unfold DB.QueryRow at h
  split at h
  · cases h; exact Or.inr ⟨_, rfl⟩
  · split at h
    · cases h; exact Or.inr ⟨_, rfl⟩
    · split at h
      · cases h; exact Or.inr ⟨_, rfl⟩
      · cases h; exact Or.inl rfl
    · split at h
      · cases h; exact Or.inr ⟨_, rfl⟩
      · split at h
        · cases h; exact Or.inr ⟨_, rfl⟩
        · cases h

theorem errorsIs_wrapped_driver (text : String) (cause : GoError)
    (h : cause = .ErrNoRows ∨ ∃ e, cause = .driver e) :
    errorsIs (.wrapped text cause) .ErrRecordNotFound = false := by
  rcases h with h | ⟨e, h⟩ <;> subst h <;> simp [errorsIs]

theorem CharacterModel_Get_cases (m : CharacterModel) (id : Int) (h : 1 ≤ id) :
    (∃ character, (m.Get id).result = .ok character) ∨
    ∃ cause, (cause = .ErrNoRows ∨ ∃ e, cause = .driver e) ∧
      (m.Get id).result
        = .error (.wrapped ("cannot retrive character with id: " ++ toString id ++ ", ")
            cause) := by
  unfold CharacterModel.Get
  rw [if_neg (by omega)]
  simp only
  cases hq : m.DB.QueryRow (characterGetStatement id) with
  | error err => exact Or.inr ⟨err, QueryRow_error_kind _ _ _ hq, rfl⟩
  | ok character => exact Or.inl ⟨character, rfl⟩

theorem EpisodeModel_Get_cases (m : EpisodeModel) (id : Int) (h : 1 ≤ id) :
    (∃ episode, (m.Get id).result = .ok episode) ∨
    ∃ cause, (cause = .ErrNoRows ∨ ∃ e, cause = .driver e) ∧
      (m.Get id).result
        = .error (.wrapped ("cannot retrive episode with id: " ++ toString id ++ ", ")
            cause) := by
  unfold EpisodeModel.Get
  rw [if_neg (by omega)]
  simp only
  cases hq : m.DB.QueryRow (episodeGetStatement id) with
  | error err => exact Or.inr ⟨err, QueryRow_error_kind _ _ _ hq, rfl⟩
  | ok episode => exact Or.inl ⟨episode, rfl⟩

/-- Claim C15. `CharacterModel.Get` and `EpisodeModel.Get` return
`ErrRecordNotFound` exactly when `id < 1`, and then issue no query.  For
`id >= 1` every failed lookup, the one that finds no row (`sql.ErrNoRows`)
included, is returned wrapped by `fmt.Errorf`, is not `ErrRecordNotFound` for
`errors.Is`, and `getCharacterHandler` and `getEpisodeHandler` answer it with
`serverErrorResponse`.  `QuoteModel.Get` returns `ErrRecordNotFound` when the
lookup finds no row. -/
theorem Get_not_found_only_below_one :
    ((∀ (m : CharacterModel) (id : Int), id < 1 →
        (m.Get id).result = .error .ErrRecordNotFound ∧ (m.Get id).issued = []) ∧
      (∀ (m : CharacterModel) (id : Int),
        (m.Get id).result = .error .ErrRecordNotFound ↔ id < 1) ∧
      (∀ (m : CharacterModel) (id : Int) (err : GoError), 1 ≤ id →
        (m.Get id).result = .error err →
        (∃ text cause, err = .wrapped text cause) ∧
          errorsIs err .ErrRecordNotFound = false) ∧
      (∀ (m : CharacterModel) (id : Int), 1 ≤ id →
        m.DB.QueryRow (characterGetStatement id) = .error .ErrNoRows →
        (m.Get id).result
          = .error (.wrapped ("cannot retrive character with id: " ++ toString id ++ ", ")
              .ErrNoRows)) ∧
      (∀ (app : Application) (r : Request) (id : Int) (err : GoError),
        app.readIDParam r = .ok id → 1 ≤ id →
        (app.models.Characters.Get id).result = .error err →
        getCharacterHandler app r = ⟨.serverError err, [.charactersGet id]⟩)) ∧
    ((∀ (m : EpisodeModel) (id : Int), id < 1 →
        (m.Get id).result = .error .ErrRecordNotFound ∧ (m.Get id).issued = []) ∧
      (∀ (m : EpisodeModel) (id : Int),
        (m.Get id).result = .error .ErrRecordNotFound ↔ id < 1) ∧
      (∀ (m : EpisodeModel) (id : Int) (err : GoError), 1 ≤ id →
        (m.Get id).result = .error err →
        (∃ text cause, err = .wrapped text cause) ∧
          errorsIs err .ErrRecordNotFound = false) ∧
      (∀ (m : EpisodeModel) (id : Int), 1 ≤ id →
        m.DB.QueryRow (episodeGetStatement id) = .error .ErrNoRows →
        (m.Get id).result
          = .error (.wrapped ("cannot retrive episode with id: " ++ toString id ++ ", ")
              .ErrNoRows)) ∧
      (∀ (app : Application) (r : Request) (id : Int) (err : GoError),
        app.readIDParam r = .ok id → 1 ≤ id →
        (app.models.Episodes.Get id).result = .error err →
        getEpisodeHandler app r = ⟨.serverError err, [.episodesGet id]⟩)) ∧
    (∀ (m : QuoteModel) (id : Int), 1 ≤ id →
      m.DB.QueryRow (quoteGetStatement id) = .error .ErrNoRows →
      (m.Get id).result = .error .ErrRecordNotFound) := by
  have hc : ∀ (m : CharacterModel) (id : Int) (err : GoError), 1 ≤ id →
      (m.Get id).result = .error err →
      (∃ text cause, err = .wrapped text cause) ∧ errorsIs err .ErrRecordNotFound = false := by
    intro m id err hid herr
    rcases CharacterModel_Get_cases m id hid with ⟨c, hok⟩ | ⟨cause, hk, hres⟩
    · rw [hok] at herr; cases herr
    · rw [hres] at herr
      cases herr
      exact ⟨⟨_, _, rfl⟩, errorsIs_wrapped_driver _ _ hk⟩
  have he : ∀ (m : EpisodeModel) (id : Int) (err : GoError), 1 ≤ id →
      (m.Get id).result = .error err →
      (∃ text cause, err = .wrapped text cause) ∧ errorsIs err .ErrRecordNotFound = false := by
    intro m id err hid herr
    rcases EpisodeModel_Get_cases m id hid with ⟨c, hok⟩ | ⟨cause, hk, hres⟩
    · rw [hok] at herr; cases herr
    · rw [hres] at herr
      cases herr
      exact ⟨⟨_, _, rfl⟩, errorsIs_wrapped_driver _ _ hk⟩
  refine ⟨⟨?_, ?_, hc, ?_, ?_⟩, ⟨?_, ?_, he, ?_, ?_⟩, ?_⟩
  · intro m id hid
    unfold CharacterModel.Get
    rw [if_pos hid]
    exact ⟨rfl, rfl⟩
  · intro m id
    constructor
    · intro h
      by_contra hge
      obtain ⟨⟨text, cause, hw⟩, -⟩ := hc m id _ (by omega) h
      cases hw
    · intro hid
      unfold CharacterModel.Get
      rw [if_pos hid]
  · intro m id hid hq
    unfold CharacterModel.Get
    rw [if_neg (by omega)]
    simp only [hq]
  · intro app r id err hr hid herr
    unfold getCharacterHandler
    rw [hr]
    simp only [herr, errorReply, (hc _ id err hid herr).2]
    rfl
  · intro m id hid
    unfold EpisodeModel.Get
    rw [if_pos hid]
    exact ⟨rfl, rfl⟩
  · intro m id
    constructor
    · intro h
      by_contra hge
      obtain ⟨⟨text, cause, hw⟩, -⟩ := he m id _ (by omega) h
      cases hw
    · intro hid
      unfold EpisodeModel.Get
      rw [if_pos hid]
  · intro m id hid hq
    unfold EpisodeModel.Get
    rw [if_neg (by omega)]
    simp only [hq]
  · intro app r id err hr hid herr
    unfold getEpisodeHandler
    rw [hr]
    simp only [herr, errorReply, (he _ id err hid herr).2]
    rfl
  · intro m id hid hq
    unfold QuoteModel.Get
    rw [if_neg (by omega)]
    simp only [hq]
    rfl

/-- Witness of C15: the id 7 matches no stored character, and
`getCharacterHandler` answers with the server-error response carrying the
wrapped `sql.ErrNoRows`. -/
theorem Get_not_found_only_below_one_witness :
    lookupSeven.readIDParam emptyRequest = .ok 7 ∧ (1 : Int) ≤ 7 ∧
    getCharacterHandler lookupSeven emptyRequest
      = ⟨.serverError
          (.wrapped ("cannot retrive character with id: " ++ toString (7 : Int) ++ ", ")
            .ErrNoRows), [.charactersGet 7]⟩ :=
  ⟨rfl, by decide,
    Get_not_found_only_below_one.1.2.2.2.2 lookupSeven emptyRequest 7 _ rfl (by decide) rfl⟩

/-! ### The age filter of the character list (C16) -/

theorem Check_valid (v : Validator) (ok : Bool) (key message : String)
    (h : (v.Check ok key message).Valid = true) : ok = true ∧ v.Valid = true := by
  cases ok with
  | true => exact ⟨rfl, h⟩
  | false =>
    have hc : v.Check false key message = v.AddError key message := rfl
    rw [hc, AddError_not_valid] at h
    cases h

theorem ValidateFilters_valid (msgs : RangeMessages) (v : Validator) (f : Filters)
    (h : (ValidateFilters msgs v f).Valid = true) :
    (1 ≤ f.Page ∧ f.Page ≤ 10000000) ∧ (1 ≤ f.PageSize ∧ f.PageSize ≤ 100) ∧
      f.SortToken ∈ f.SortSafeList := by
  have hshape : ValidateFilters msgs v f
      = ((v.Check (decide (1 ≤ f.Page ∧ f.Page ≤ 10000000)) "page" msgs.page).Check
          (decide (1 ≤ f.PageSize ∧ f.PageSize ≤ 100)) "page_size" msgs.pageSize).Check
          (In f.SortToken f.SortSafeList) "sort" "invalid sort value" := rfl
  rw [hshape] at h
  obtain ⟨h3, h'⟩ := Check_valid _ _ _ _ h
  obtain ⟨h2, h''⟩ := Check_valid _ _ _ _ h'
  obtain ⟨h1, -⟩ := Check_valid _ _ _ _ h''
  exact ⟨of_decide_eq_true h1, of_decide_eq_true h2, (In_iff_mem _ _).1 h3⟩

/-- Claim C16. `getCharacterList` makes no call when validation fails, and when
it passes makes exactly one call of `CharacterModel.GetAll`, with the one value
read for `age` (`readInt` with default 0) as both `age_from` and `age_to`.  On
a server that executes the statement, the response then holds the window of
the stored characters that satisfy the name predicate and whose age equals
that value, or of every age when the value is 0. -/
theorem getCharacterList_single_age (app : Application) (qs : QueryValues) :
    ((characterListInput app qs).2.2.2.Valid = false → (getCharacterList app qs).calls = []) ∧
    ((characterListInput app qs).2.2.2.Valid = true →
      (getCharacterList app qs).calls
          = [ModelCall.charactersGetAll (app.readStrings qs "name" "")
              (app.readInt qs "age" 0 Validator.New).1
              (app.readInt qs "age" 0 Validator.New).1 (characterListInput app qs).2.2.1] ∧
      ∀ data : Database, app.models.Characters = ⟨⟨data, Faults.none⟩⟩ → 32 ≤ app.intBits →
        ∃ sorted : List Character,
          List.Perm sorted (data.characters.filter (fun c =>
            characterNamePredicate (app.readStrings qs "name" "") c
              && (decide ((app.readInt qs "age" 0 Validator.New).1 = 0)
                || decide (c.Age = (app.readInt qs "age" 0 Validator.New).1)))) ∧
          (getCharacterList app qs).response
            = .characters
                ((sorted.drop ((characterListInput app qs).2.2.1.PageSize
                    * ((characterListInput app qs).2.2.1.Page - 1)).toNat).take
                  (characterListInput app qs).2.2.1.PageSize.toNat)
                (calculateMetadata
                  (if (characterListInput app qs).2.2.1.PageSize
                      * ((characterListInput app qs).2.2.1.Page - 1) < (sorted.length : Int)
                    then (sorted.length : Int) else 0)
                  (characterListInput app qs).2.2.1.Page
                  (characterListInput app qs).2.2.1.PageSize)) := by
  constructor
  · intro hv
    unfold getCharacterList
    simp [hv]
  · intro hv
    have hcalls : (getCharacterList app qs).calls
        = [ModelCall.charactersGetAll (app.readStrings qs "name" "")
            (app.readInt qs "age" 0 Validator.New).1
            (app.readInt qs "age" 0 Validator.New).1 (characterListInput app qs).2.2.1] := by
      rcases getCharacterList_calls app qs with h | h
      · exfalso
        unfold getCharacterList at h
        simp only [hv] at h
        cases hg : app.models.Characters.GetAll app.intBits (characterListInput app qs).1
            (characterListInput app qs).2.1 (characterListInput app qs).2.1
            (characterListInput app qs).2.2.1 with
        | none => simp [hg] at h
        | some res => cases he : res.err <;> simp [hg, he] at h
      · exact h
    refine ⟨hcalls, ?_⟩
    intro data hdata hbits
    have hval : (characterListInput app qs).2.2.2
        = ValidateFilters app.rangeMessages
            (app.readInt qs "page_size" 20 (app.readInt qs "page" 1
              (app.readInt qs "age" 0 Validator.New).2).2).2
            (characterListInput app qs).2.2.1 := rfl
    rw [hval] at hv
    obtain ⟨hpage, hsize, hmem⟩ := ValidateFilters_valid _ _ _ hv
    obtain ⟨sorted, hperm, hget⟩ :=
      CharacterModel_GetAll_rows app.intBits data (characterListInput app qs).2.2.1
        (app.readStrings qs "name" "") (app.readInt qs "age" 0 Validator.New).1
        (app.readInt qs "age" 0 Validator.New).1 hbits hpage hsize rfl hmem
    refine ⟨sorted, ?_, ?_⟩
    · have hfilter : data.characters.filter
            (characterWhere (app.readStrings qs "name" "")
              (app.readInt qs "age" 0 Validator.New).1 (app.readInt qs "age" 0 Validator.New).1)
          = data.characters.filter (fun c =>
              characterNamePredicate (app.readStrings qs "name" "") c
                && (decide ((app.readInt qs "age" 0 Validator.New).1 = 0)
                  || decide (c.Age = (app.readInt qs "age" 0 Validator.New).1))) := by
        apply List.filter_congr
        intro c _
        generalize (app.readInt qs "age" 0 Validator.New).1 = age
        simp only [characterWhere, characterAgeFromPredicate, characterAgeToPredicate]
        by_cases h1 : age = 0
        · simp [h1]
        · by_cases h2 : c.Age = age
          · simp [h1, h2]
          · have : ¬ (age ≤ c.Age ∧ c.Age ≤ age) := fun h => h2 (by omega)
            by_cases h3 : age ≤ c.Age <;> by_cases h4 : c.Age ≤ age <;>
              simp_all
      rw [← hfilter]
      exact hperm
    · rw [← hval] at hv
      unfold getCharacterList
      simp only [hv]
      rw [hdata]
      have hget' : CharacterModel.GetAll app.intBits ⟨⟨data, Faults.none⟩⟩
          (characterListInput app qs).1 (characterListInput app qs).2.1
          (characterListInput app qs).2.1 (characterListInput app qs).2.2.1 = _ := hget
      simp [hget']

/-- Witness of C16: a request whose age reads 14, on two stored characters of
age 112 and 14: one call with 14 on both sides, and the response holds the
character of age 14 alone. -/
theorem getCharacterList_single_age_witness :
    (characterListInput ageFourteen []).2.2.2.Valid = true ∧
    (getCharacterList ageFourteen []).calls
      = [ModelCall.charactersGetAll "" 14 14 ⟨1, 20, "id", characterSortSafeList⟩] ∧
    (getCharacterList ageFourteen []).response
      = .characters [katara] (calculateMetadata 1 1 20) :=
  ⟨by decide, ((getCharacterList_single_age ageFourteen []).2 (by decide)).1, rfl⟩

/-! ### The id of deleteEpisodeHandler (C17) -/

theorem deleteEpisodeHandler_not_found (app : Application) (r : Request)
    (h : ∀ id, Atoi app.intBits (valuesGet r.query ":id") = some id → id < 1) :
    deleteEpisodeHandler app r = ⟨.notFound, []⟩ := by
  unfold deleteEpisodeHandler
  cases ha : Atoi app.intBits (valuesGet r.query ":id") with
  | none => rfl
  | some id =>
    simp only
    rw [if_pos (h id ha)]

/-- Claim C17. `deleteEpisodeHandler` reads the id from the value of the
query-string parameter `:id` alone: two requests with the same query string get
the same answer whatever their path variables.  When the query string has no
`:id` parameter, or its value is not an integer `>= 1`, the handler answers
not-found and makes no call; a call of `Episodes.Delete` is made only with an
id `>= 1` read from that parameter. -/
theorem deleteEpisodeHandler_reads_query_id (app : Application) (r : Request) :
    (∀ r' : Request, r'.query = r.query →
      deleteEpisodeHandler app r' = deleteEpisodeHandler app r) ∧
    (r.query.lookup ":id" = none → deleteEpisodeHandler app r = ⟨.notFound, []⟩) ∧
    ((∀ id, Atoi app.intBits (valuesGet r.query ":id") = some id → id < 1) →
      deleteEpisodeHandler app r = ⟨.notFound, []⟩) ∧
    (∀ call ∈ (deleteEpisodeHandler app r).calls, ∃ id, call = .episodesDelete id ∧
      1 ≤ id ∧ Atoi app.intBits (valuesGet r.query ":id") = some id) := by
  refine ⟨?_, ?_, deleteEpisodeHandler_not_found app r, ?_⟩
  · intro r' hq
    unfold deleteEpisodeHandler
    rw [hq]
  · intro hnone
    apply deleteEpisodeHandler_not_found
    intro id hid
    have hv : valuesGet r.query ":id" = "" := by
      unfold valuesGet
      rw [hnone]
    rw [hv] at hid
    cases hid
  · intro call hcall
    unfold deleteEpisodeHandler at hcall
    cases ha : Atoi app.intBits (valuesGet r.query ":id") with
    | none => rw [ha] at hcall; cases hcall
    | some id =>
      rw [ha] at hcall
      simp only at hcall
      by_cases hid : id < 1
      · rw [if_pos hid] at hcall; cases hcall
      · rw [if_neg hid] at hcall
        refine ⟨id, ?_, by omega, rfl⟩
        cases hd : app.models.Episodes.Delete id with
        | none => rw [hd] at hcall; simpa using hcall
        | some err => rw [hd] at hcall; simpa using hcall

/-- Witness of C17: `DELETE /episodes/5`, with the path id 5 and no `:id` in the
query string, is answered not-found without a call of `Episodes.Delete`. -/
theorem deleteEpisodeHandler_reads_query_id_witness :
    deleteEpisodeFive.pathVars = [("id", "5")] ∧
    deleteEpisodeFive.query.lookup ":id" = none ∧
    deleteEpisodeHandler sampleApp deleteEpisodeFive = ⟨.notFound, []⟩ :=
  ⟨rfl, rfl, (deleteEpisodeHandler_reads_query_id sampleApp deleteEpisodeFive).2.1 rfl⟩

/-! ### The record of the update handlers (C18) -/

theorem applyCharacterUpdate_fields (stored : Character) (input : CharacterUpdate) :
    applyCharacterUpdate stored input
      = ⟨stored.ID, input.Name.getD stored.Name, input.Age.getD stored.Age,
          input.Gender.getD stored.Gender, input.Status.getD stored.Status,
          input.Nation.getD stored.Nation, stored.CreatedAt, stored.UpdatedAt⟩ := by
  obtain ⟨id, name, age, gender, status, nation⟩ := input
  cases name <;> cases age <;> cases gender <;> cases status <;> cases nation <;> rfl

theorem applyEpisodeUpdate_fields (stored : Episode) (input : EpisodeUpdate) :
    applyEpisodeUpdate stored input
      = ⟨stored.ID, input.Title.getD stored.Title, input.Air_Date.getD stored.Air_Date,
          stored.CreatedAt, stored.UpdatedAt⟩ := by
  obtain ⟨id, title, air_date⟩ := input
  cases title <;> cases air_date <;> rfl

theorem applyQuoteUpdate_fields (stored : Quote) (input : QuoteUpdate) :
    applyQuoteUpdate stored input
      = ⟨stored.ID, input.Quote.getD stored.Quote, stored.CreatedAt, stored.UpdatedAt⟩ := by
  obtain ⟨text⟩ := input
  cases text <;> rfl

theorem updateCharacterHandler_calls (app : Application) (r : Request) (id : Int)
    (stored : Character) (input : CharacterUpdate) (hid : app.readIDParam r = .ok id)
    (hget : (app.models.Characters.Get id).result = .ok stored)
    (hbody : app.readCharacterUpdate r = .ok input) :
    (updateCharacterHandler app r).calls
        = [.charactersGet id, .validateCharacter (applyCharacterUpdate stored input)] ∨
    (updateCharacterHandler app r).calls
        = [.charactersGet id, .validateCharacter (applyCharacterUpdate stored input),
            .charactersUpdate (applyCharacterUpdate stored input)] := by
  unfold updateCharacterHandler
  rw [hid]
  simp only [hget, hbody]
  cases hv : (ValidateCharacter Validator.New (applyCharacterUpdate stored input)).Valid with
  | false => left; simp
  | true =>
    right
    cases hu : app.models.Characters.Update (applyCharacterUpdate stored input) <;> simp

theorem updateEpisodeHandler_calls (app : Application) (r : Request) (id : Int)
    (stored : Episode) (input : EpisodeUpdate) (hid : app.readIDParam r = .ok id)
    (hget : (app.models.Episodes.Get id).result = .ok stored)
    (hbody : app.readEpisodeUpdate r = .ok input) :
    (updateEpisodeHandler app r).calls
        = [.episodesGet id, .validateEpisode (applyEpisodeUpdate stored input)] ∨
    (updateEpisodeHandler app r).calls
        = [.episodesGet id, .validateEpisode (applyEpisodeUpdate stored input),
            .episodesUpdate (applyEpisodeUpdate stored input)] := by
  unfold updateEpisodeHandler
  rw [hid]
  simp only [hget, hbody]
  cases hv : (ValidateEpisode Validator.New (applyEpisodeUpdate stored input)).Valid with
  | false => left; simp
  | true =>
    right
    cases hu : app.models.Episodes.Update (applyEpisodeUpdate stored input) <;> simp

theorem updateQuoteHandler_calls (app : Application) (r : Request) (id : Int)
    (stored : Quote) (input : QuoteUpdate) (hid : app.readIDParam r = .ok id)
    (hget : (app.models.Quotes.Get id).result = .ok stored)
    (hbody : app.readQuoteUpdate r = .ok input) :
    (updateQuoteHandler app r).calls
        = [.quotesGet id, .validateQuote (applyQuoteUpdate stored input)] ∨
    (updateQuoteHandler app r).calls
        = [.quotesGet id, .validateQuote (applyQuoteUpdate stored input),
            .quotesUpdate (applyQuoteUpdate stored input)] := by
  unfold updateQuoteHandler
  rw [hid]
  simp only [hget, hbody]
  cases hv : (ValidateQuote Validator.New (applyQuoteUpdate stored input)).Valid with
  | false => left; simp
  | true =>
    right
    cases hu : app.models.Quotes.Update (applyQuoteUpdate stored input) <;> simp

/-- Claim C18. In `updateCharacterHandler`, `updateEpisodeHandler` and
`updateQuoteHandler`, for every stored record loaded by `Get` and every decoded
body: the record handed to validation, and to `Update` when validation passes,
is the stored record with each updatable field (name, age, gender, status,
nation; title, air_date; quote) replaced by the body's value when the body
supplies it and kept otherwise, and with `ID`, `CreatedAt` and `UpdatedAt` as
loaded, whatever id the body supplies; no other record is validated or
updated. -/
theorem update_handlers_record (app : Application) (r : Request) (id : Int)
    (hid : app.readIDParam r = .ok id) :
    (∀ (stored : Character) (input : CharacterUpdate),
      (app.models.Characters.Get id).result = .ok stored →
      app.readCharacterUpdate r = .ok input →
      applyCharacterUpdate stored input
          = ⟨stored.ID, input.Name.getD stored.Name, input.Age.getD stored.Age,
              input.Gender.getD stored.Gender, input.Status.getD stored.Status,
              input.Nation.getD stored.Nation, stored.CreatedAt, stored.UpdatedAt⟩ ∧
        StoreCall.validateCharacter (applyCharacterUpdate stored input)
          ∈ (updateCharacterHandler app r).calls ∧
        ((ValidateCharacter Validator.New (applyCharacterUpdate stored input)).Valid = true →
          StoreCall.charactersUpdate (applyCharacterUpdate stored input)
            ∈ (updateCharacterHandler app r).calls) ∧
        (∀ c, StoreCall.validateCharacter c ∈ (updateCharacterHandler app r).calls ∨
            StoreCall.charactersUpdate c ∈ (updateCharacterHandler app r).calls →
          c = applyCharacterUpdate stored input)) ∧
    (∀ (stored : Episode) (input : EpisodeUpdate),
      (app.models.Episodes.Get id).result = .ok stored →
      app.readEpisodeUpdate r = .ok input →
      applyEpisodeUpdate stored input
          = ⟨stored.ID, input.Title.getD stored.Title, input.Air_Date.getD stored.Air_Date,
              stored.CreatedAt, stored.UpdatedAt⟩ ∧
        StoreCall.validateEpisode (applyEpisodeUpdate stored input)
          ∈ (updateEpisodeHandler app r).calls ∧
        ((ValidateEpisode Validator.New (applyEpisodeUpdate stored input)).Valid = true →
          StoreCall.episodesUpdate (applyEpisodeUpdate stored input)
            ∈ (updateEpisodeHandler app r).calls) ∧
        (∀ e, StoreCall.validateEpisode e ∈ (updateEpisodeHandler app r).calls ∨
            StoreCall.episodesUpdate e ∈ (updateEpisodeHandler app r).calls →
          e = applyEpisodeUpdate stored input)) ∧
    (∀ (stored : Quote) (input : QuoteUpdate),
      (app.models.Quotes.Get id).result = .ok stored →
      app.readQuoteUpdate r = .ok input →
      applyQuoteUpdate stored input
          = ⟨stored.ID, input.Quote.getD stored.Quote, stored.CreatedAt, stored.UpdatedAt⟩ ∧
        StoreCall.validateQuote (applyQuoteUpdate stored input)
          ∈ (updateQuoteHandler app r).calls ∧
        ((ValidateQuote Validator.New (applyQuoteUpdate stored input)).Valid = true →
          StoreCall.quotesUpdate (applyQuoteUpdate stored input)
            ∈ (updateQuoteHandler app r).calls) ∧
        (∀ q, StoreCall.validateQuote q ∈ (updateQuoteHandler app r).calls ∨
            StoreCall.quotesUpdate q ∈ (updateQuoteHandler app r).calls →
          q = applyQuoteUpdate stored input)) := by
  refine ⟨?_, ?_, ?_⟩
  · intro stored input hget hbody
    refine ⟨applyCharacterUpdate_fields stored input, ?_, ?_, ?_⟩
    · rcases updateCharacterHandler_calls app r id stored input hid hget hbody with h | h <;>
        rw [h] <;> simp
    · intro hv
      unfold updateCharacterHandler
      rw [hid]
      simp only [hget, hbody, hv]
      cases app.models.Characters.Update (applyCharacterUpdate stored input) <;> simp
    · intro c hc
      rcases updateCharacterHandler_calls app r id stored input hid hget hbody with h | h <;>
        rw [h] at hc <;> simpa using hc
  · intro stored input hget hbody
    refine ⟨applyEpisodeUpdate_fields stored input, ?_, ?_, ?_⟩
    · rcases updateEpisodeHandler_calls app r id stored input hid hget hbody with h | h <;>
        rw [h] <;> simp
    · intro hv
      unfold updateEpisodeHandler
      rw [hid]
      simp only [hget, hbody, hv]
      cases app.models.Episodes.Update (applyEpisodeUpdate stored input) <;> simp
    · intro e he
      rcases updateEpisodeHandler_calls app r id stored input hid hget hbody with h | h <;>
        rw [h] at he <;> simpa using he
  · intro stored input hget hbody
    refine ⟨applyQuoteUpdate_fields stored input, ?_, ?_, ?_⟩
    · rcases updateQuoteHandler_calls app r id stored input hid hget hbody with h | h <;>
        rw [h] <;> simp
    · intro hv
      unfold updateQuoteHandler
      rw [hid]
      simp only [hget, hbody, hv]
      cases app.models.Quotes.Update (applyQuoteUpdate stored input) <;> simp
    · intro q hq
      rcases updateQuoteHandler_calls app r id stored input hid hget hbody with h | h <;>
        rw [h] at hq <;> simpa using hq

/-- Witness of C18: the stored character 1 and a body with id 99, a new name and
a new age; the record validated keeps the id 1 and the unsupplied fields. -/
theorem update_handlers_record_witness :
    renamingApp.readIDParam emptyRequest = .ok 1 ∧
    (renamingApp.models.Characters.Get 1).result = .ok aang ∧
    renamingApp.readCharacterUpdate emptyRequest = .ok renameAang ∧
    applyCharacterUpdate aang renameAang
      = ⟨1, "Avatar Aang", 113, "male", "alive", "Air Nomads", "", ""⟩ ∧
    StoreCall.validateCharacter (applyCharacterUpdate aang renameAang)
      ∈ (updateCharacterHandler renamingApp emptyRequest).calls :=
  ⟨rfl, rfl, rfl, rfl,
    ((update_handlers_record renamingApp emptyRequest 1 rfl).1 aang renameAang rfl rfl).2.1⟩

end ATLA
